import Mathlib

set_option maxHeartbeats 1000000
set_option maxRecDepth 100000

/-!
Verification development for the execution core of the dada language:
the abstract machine and single-step interpreter
(components/dada-execute/src/step.rs over the BIR of
components/dada-ir/src/code/bir.rs), and the heap-graph snapshot
renderer (components/dada-execute/src/heap_graph/graphviz.rs).

Interpreter helpers whose sources are not part of the repository
snapshot (the machine, traversal, and permission-algebra modules) are
modelled from the specification; each such definition carries a
doc comment starting with "Modelled from the spec:".
-/

namespace Dada

/-- Decidable equality for Except, used to evaluate the interpreter on
concrete machines inside proofs. -/
instance exceptDecEq {ε α : Type} [DecidableEq ε] [DecidableEq α] :
    DecidableEq (Except ε α) := fun x y =>
  match x, y with
  | .error a, .error b =>
      if h : a = b then .isTrue (by rw [h])
      else .isFalse (by intro hc; cases hc; exact h rfl)
  | .ok a, .ok b =>
      if h : a = b then .isTrue (by rw [h])
      else .isFalse (by intro hc; cases hc; exact h rfl)
  | .error _, .ok _ => .isFalse (by intro hc; cases hc)
  | .ok _, .error _ => .isFalse (by intro hc; cases hc)

/-! ### BIR, as consumed by the stepper (dada-ir/src/code/bir.rs and step.rs) -/

/-- Binary operators of Op expressions.  Modelled from the spec: the
operator set itself lives in the validated-IR module, which is not part
of the source snapshot; arithmetic is on unsigned integers and equality
yields a boolean. -/
inductive BinOp where
  | plus
  | times
  | equalTest
  deriving Repr, DecidableEq

/-- Place expressions (bir.rs PlaceData): a local variable, a global
function, class or intrinsic, or a field projection. -/
inductive PlaceData where
  | localVariable (v : Nat)
  | functionRef (f : Nat)
  | classRef (c : Nat)
  | intrinsicRef (name : String)
  | dot (base : PlaceData) (field : String)
  deriving Repr, DecidableEq

/-- Expressions evaluated by Stepper::eval_expr (step.rs). -/
inductive ExprData where
  | booleanLiteral (b : Bool)
  | integerLiteral (v : Nat)
  | stringLiteral (s : String)
  | unit
  | giveShare (p : PlaceData)
  | lease (p : PlaceData)
  | give (p : PlaceData)
  | tuple (ps : List PlaceData)
  | op (lhs : PlaceData) (o : BinOp) (rhs : PlaceData)
  | error
  deriving Repr, DecidableEq

/-- Statements dispatched by Stepper::step_statement (step.rs). -/
inductive StatementData where
  | assign (place : PlaceData) (expr : ExprData)
  | breakpointStart (filename : String) (index : Nat)
  | breakpointEnd (filename : String) (index : Nat) (expr : Nat)
      (inFlight : Option PlaceData)
  deriving Repr, DecidableEq

/-- Terminator expressions (bir.rs TerminatorExpr): the only two forms
are Await and Call. -/
inductive TerminatorExpr where
  | await (place : PlaceData)
  | call (function : PlaceData) (arguments : List PlaceData)
      (labels : List (Option String))
  deriving Repr, DecidableEq

/-- Terminators (bir.rs TerminatorData). -/
inductive TerminatorData where
  | goto (b : Nat)
  | ifTerm (place : PlaceData) (ifTrue : Nat) (ifFalse : Nat)
  | startAtomic (b : Nat)
  | endAtomic (b : Nat)
  | returnTerm (place : PlaceData)
  | assign (target : PlaceData) (expr : TerminatorExpr) (next : Nat)
  | error
  | panicTerm
  deriving Repr, DecidableEq

/-- A basic block: a list of statements followed by one terminator. -/
structure BasicBlockData where
  statements : List StatementData
  terminator : TerminatorData
  deriving Repr, DecidableEq

/-- One BIR function body: its basic blocks, the index of the starting
block, the number of parameters, and the total local-slot count. -/
structure BirData where
  basicBlocks : List BasicBlockData
  startBlock : Nat
  numParameters : Nat
  localCount : Nat
  deriving Repr, DecidableEq

/-- A class declaration: name and field names (dada-ir/src/class.rs). -/
structure ClassData where
  name : String
  fields : List String
  deriving Repr, DecidableEq

/-- The immutable program environment: BIR bodies indexed by function
id and class declarations indexed by class id. -/
structure Program where
  birs : List BirData
  classes : List ClassData
  deriving Repr, DecidableEq

/-- Program counter: a BIR, a basic block, and a statement index;
statement index equal to the statement count denotes "at terminator". -/
structure ProgramCounter where
  bir : Nat
  basicBlock : Nat
  statement : Nat
  deriving Repr, DecidableEq

/-- Modelled from the spec: moving the PC to a target block positions
it at the start of that block (machine module, not in the snapshot). -/
def ProgramCounter.moveToBlock (pc : ProgramCounter) (b : Nat) : ProgramCounter :=
  { pc with basicBlock := b, statement := 0 }

/-! ### Machine state (spec sections 3 and 4.2) -/

/-- A value: pair of an object handle and a permission handle. -/
structure Value where
  object : Nat
  permission : Nat
  deriving Repr, DecidableEq

/-- Permission kinds (spec section 3). -/
inductive PermissionKind where
  | my
  | our
  | leased
  | shared
  deriving Repr, DecidableEq

/-- Modelled from the spec: permission state is kind, optional lessor
handle, optional tenant handle, and a canceled flag (machine module). -/
structure PermissionData where
  kind : PermissionKind
  lessor : Option Nat
  tenant : Option Nat
  canceled : Bool
  deriving Repr, DecidableEq

/-- A fresh Our permission (ValidPermissionData::our in step.rs). -/
def ourPermission : PermissionData :=
  { kind := .our, lessor := none, tenant := none, canceled := false }

/-- A fresh My permission (ValidPermissionData::my in step.rs). -/
def myPermission : PermissionData :=
  { kind := .my, lessor := none, tenant := none, canceled := false }

/-- Modelled from the spec: object data variants (spec section 3;
machine module not in the snapshot).  Thunk wraps a user async
function; rustThunk is a suspended native call. -/
inductive ObjectData where
  | instanceObj (cls : Nat) (fields : List Value)
  | tupleObj (fields : List Value)
  | classObj (c : Nat)
  | functionObj (f : Nat)
  | intrinsicObj (name : String)
  | thunk (f : Nat) (args : List Value)
  | rustThunk (name : String) (args : List Value)
  | boolObj (b : Bool)
  | uintObj (v : Nat)
  | stringObj (s : String)
  | unitObj
  deriving Repr, DecidableEq

/-- A stack frame: its program counter and its local slots; a slot is
either uninitialized or holds a value. -/
structure Frame where
  pc : ProgramCounter
  vars : List (Option Value)
  deriving Repr, DecidableEq

/-- Machine state: program environment, call stack (head is the top
frame), object arena, permission arena. -/
structure Machine where
  program : Program
  stack : List Frame
  objects : List ObjectData
  permissions : List PermissionData
  deriving Repr, DecidableEq

/-- Fault kinds (spec section 7).  machineBug models a Rust panic or
failed assertion inside the interpreter. -/
inductive Fault where
  | useOfCanceledPermission
  | insufficientPermission
  | noSuchField
  | typeMismatch
  | uninitializedPlace
  | compilationError
  | panicFault
  | machineBug (msg : String)
  deriving Repr, DecidableEq

/-- The top frame is the head of the stack. -/
def Machine.topFrame (m : Machine) : Option Frame := m.stack.head?

/-- Set the program counter of the top frame. -/
def Machine.setPc (m : Machine) (pc : ProgramCounter) : Machine :=
  { m with stack :=
      match m.stack with
      | [] => []
      | f :: rest => { f with pc := pc } :: rest }

/-- Allocate a new object, returning its handle. -/
def Machine.newObject (m : Machine) (od : ObjectData) : Nat × Machine :=
  (m.objects.length, { m with objects := m.objects ++ [od] })

/-- Allocate a new permission, returning its handle. -/
def Machine.newPermission (m : Machine) (pd : PermissionData) : Nat × Machine :=
  (m.permissions.length, { m with permissions := m.permissions ++ [pd] })

/-- Modelled from the spec: clear_frame uninitializes every slot of the
top frame before it is popped, so that revocations are attributed to
the callee (spec section 4.2). -/
def Machine.clearFrame (m : Machine) : Machine :=
  { m with stack :=
      match m.stack with
      | [] => []
      | f :: rest => { f with vars := f.vars.map (fun _ => none) } :: rest }

/-- Modelled from the spec: pop_frame removes the top frame. -/
def Machine.popFrame (m : Machine) : Machine :=
  { m with stack := m.stack.tail }

/-- Modelled from the spec: push_frame pushes a new top frame. -/
def Machine.pushFrame (m : Machine) (f : Frame) : Machine :=
  { m with stack := f :: m.stack }

/-- Modelled from the spec: the collector reclaims unreachable arena
entries only; it never changes the stack, the slots, or the PC, and no
claim under verification observes arena liveness, so it is modelled as
the identity on machine state (spec section 4.6). -/
def Machine.gc (m : Machine) (_roots : List Value) : Machine := m

/-! ### Permission algebra (spec section 4.4; give/lease/share/tenant/
revoke modules are not in the snapshot and are modelled from the spec) -/

/-- Cancel a permission and, recursively, its tenant chain.  The fuel
bounds the chain length; any list of permissions satisfying the machine
invariants has chains shorter than the arena size. -/
def revokeGo : Nat → List PermissionData → Nat → List PermissionData
  | 0, perms, _ => perms
  | Nat.succ fuel, perms, p =>
      match perms[p]? with
      | none => perms
      | some pd =>
          let perms1 := perms.set p { pd with canceled := true }
          match pd.tenant with
          | some t => revokeGo fuel perms1 t
          | none => perms1

/-- Modelled from the spec: revoke cancels a permission and everything
in its tenant subtree (spec section 4.4). -/
def Machine.revoke (m : Machine) (p : Nat) : Machine :=
  { m with permissions := revokeGo (m.permissions.length + 1) m.permissions p }

/-- Modelled from the spec: cancel the current tenant of a permission,
if any, and clear the tenant link (write propagation, spec 4.4). -/
def Machine.revokeTenantOf (m : Machine) (p : Nat) : Machine :=
  match m.permissions[p]? with
  | none => m
  | some pd =>
      match pd.tenant with
      | none => m
      | some t =>
          let m1 := m.revoke t
          match m1.permissions[t]? with
          | _ =>
            match m1.permissions[p]? with
            | none => m1
            | some pd1 =>
                { m1 with permissions := m1.permissions.set p { pd1 with tenant := none } }

/-- Result of a read traversal: the permissions encountered along the
path root-to-leaf, and the object handle at the leaf. -/
structure ObjectTraversal where
  traversed : List Nat
  object : Nat
  deriving Repr, DecidableEq

/-- Modelled from the spec: resolve a place to a readable object,
accumulating the permissions traversed (spec section 4.3).  A variable
reads its slot (faulting on an uninitialized slot or a canceled
permission); a field step reads the parent instance and descends into
the named field.  Traversal of function, class, or intrinsic places is
not described by the spec and is not exercised by any claim; it is
reported as an interpreter bug here. -/
def traverseToObject (m : Machine) : PlaceData → Except Fault ObjectTraversal
  | .localVariable v =>
      match m.topFrame with
      | none => .error (.machineBug "no frame")
      | some fr =>
          match fr.vars[v]? with
          | none => .error (.machineBug "no such local variable")
          | some none => .error .uninitializedPlace
          | some (some val) =>
              match m.permissions[val.permission]? with
              | none => .error (.machineBug "dangling permission")
              | some pd =>
                  if pd.canceled then .error .useOfCanceledPermission
                  else .ok { traversed := [val.permission], object := val.object }
  | .functionRef _ => .error (.machineBug "traversal of a function place")
  | .classRef _ => .error (.machineBug "traversal of a class place")
  | .intrinsicRef _ => .error (.machineBug "traversal of an intrinsic place")
  | .dot base field => do
      let tr ← traverseToObject m base
      match m.objects[tr.object]? with
      | some (.instanceObj cls fields) =>
          match m.program.classes[cls]? with
          | none => .error (.machineBug "dangling class")
          | some cd =>
              match cd.fields.findIdx? (fun f => f == field) with
              | none => .error .noSuchField
              | some i =>
                  match fields[i]? with
                  | none => .error (.machineBug "missing field value")
                  | some fv =>
                      match m.permissions[fv.permission]? with
                      | none => .error (.machineBug "dangling permission")
                      | some pd =>
                          if pd.canceled then .error .useOfCanceledPermission
                          else .ok { traversed := tr.traversed ++ [fv.permission],
                                     object := fv.object }
      | some _ => .error .noSuchField
      | none => .error (.machineBug "dangling object")

/-- Update slot v of the top frame. -/
def Machine.setSlot (m : Machine) (v : Nat) (val : Option Value) : Machine :=
  { m with stack :=
      match m.stack with
      | [] => []
      | f :: rest => { f with vars := f.vars.set v val } :: rest }

/-- Update field i of an instance object. -/
def Machine.setField (m : Machine) (o : Nat) (i : Nat) (val : Value) : Machine :=
  match m.objects[o]? with
  | some (.instanceObj cls fields) =>
      { m with objects := m.objects.set o (.instanceObj cls (fields.set i val)) }
  | _ => m

/-- Modelled from the spec: assigning to a place resolves the target,
revokes the previous tenant (if any) of every permission along the
write traversal, then writes the new value (write propagation, spec
section 4.4; Stepper::assign_place in step.rs delegates to
traverse_to_place and the slot write). -/
def assignPlace (m : Machine) (place : PlaceData) (v : Value) : Except Fault Machine :=
  match place with
  | .localVariable i =>
      match m.topFrame with
      | none => .error (.machineBug "no frame")
      | some fr =>
          match fr.vars[i]? with
          | none => .error (.machineBug "no such local variable")
          | some none => .ok (m.setSlot i (some v))
          | some (some old) =>
              .ok ((m.revokeTenantOf old.permission).setSlot i (some v))
  | .dot base field => do
      let tr ← traverseToObject m base
      match m.objects[tr.object]? with
      | some (.instanceObj cls fields) =>
          match m.program.classes[cls]? with
          | none => .error (.machineBug "dangling class")
          | some cd =>
              match cd.fields.findIdx? (fun f => f == field) with
              | none => .error .noSuchField
              | some i =>
                  match fields[i]? with
                  | none => .error (.machineBug "missing field value")
                  | some fv =>
                      let m1 := (tr.traversed ++ [fv.permission]).foldl
                        (fun acc p => acc.revokeTenantOf p) m
                      .ok (m1.setField tr.object i v)
      | some _ => .error .noSuchField
      | none => .error (.machineBug "dangling object")
  | _ => .error (.machineBug "assignment to a non-place")

/-- Modelled from the spec: give moves ownership (spec section 4.4).
My: transfer the permission and uninitialize the source slot.  Our:
duplicate, aliasing the same permission.  Leased or Shared: fault. -/
def givePlace (m : Machine) (place : PlaceData) : Except Fault (Value × Machine) := do
  let tr ← traverseToObject m place
  match tr.traversed.getLast? with
  | none => .error (.machineBug "empty traversal")
  | some p =>
      match m.permissions[p]? with
      | none => .error (.machineBug "dangling permission")
      | some pd =>
          match pd.kind with
          | .my =>
              let m1 := match place with
                | .localVariable v => m.setSlot v none
                | _ => m
              .ok ({ object := tr.object, permission := p }, m1)
          | .our => .ok ({ object := tr.object, permission := p }, m)
          | .leased => .error .insufficientPermission
          | .shared => .error .insufficientPermission

/-- Modelled from the spec: install a freshly created permission as the
tenant of a lessor, first revoking any prior tenant (spec section 4.4,
tenant installation). -/
def installTenant (m : Machine) (lessor : Nat) (pd : PermissionData) : Nat × Machine :=
  let m1 := m.revokeTenantOf lessor
  let (idx, m2) := m1.newPermission pd
  match m2.permissions[lessor]? with
  | none => (idx, m2)
  | some lpd =>
      (idx, { m2 with permissions := m2.permissions.set lessor { lpd with tenant := some idx } })

/-- Modelled from the spec: share produces a read-only alias (spec
section 4.4).  From My the source permission is demoted to Our; from
Our the permission is aliased; from Leased or Shared a new Shared
permission is created and installed as tenant. -/
def sharePlace (m : Machine) (place : PlaceData) : Except Fault (Value × Machine) := do
  let tr ← traverseToObject m place
  match tr.traversed.getLast? with
  | none => .error (.machineBug "empty traversal")
  | some p =>
      match m.permissions[p]? with
      | none => .error (.machineBug "dangling permission")
      | some pd =>
          match pd.kind with
          | .my =>
              .ok ({ object := tr.object, permission := p },
                   { m with permissions := m.permissions.set p { pd with kind := .our } })
          | .our => .ok ({ object := tr.object, permission := p }, m)
          | _ =>
              let npd : PermissionData :=
                { kind := .shared, lessor := some p, tenant := none, canceled := false }
              let (idx, m1) := installTenant m p npd
              .ok ({ object := tr.object, permission := idx }, m1)

/-- Modelled from the spec: lease produces an exclusive borrow (spec
section 4.4).  A new Leased permission with the place's permission as
lessor is installed as its tenant; leasing an Our value faults. -/
def leasePlace (m : Machine) (place : PlaceData) : Except Fault (Value × Machine) := do
  let tr ← traverseToObject m place
  match tr.traversed.getLast? with
  | none => .error (.machineBug "empty traversal")
  | some p =>
      match m.permissions[p]? with
      | none => .error (.machineBug "dangling permission")
      | some pd =>
          match pd.kind with
          | .our => .error .insufficientPermission
          | _ =>
              let npd : PermissionData :=
                { kind := .leased, lessor := some p, tenant := none, canceled := false }
              let (idx, m1) := installTenant m p npd
              .ok ({ object := tr.object, permission := idx }, m1)

/-! ### Expression evaluation (Stepper::eval_expr in step.rs) -/

/-- Modelled from the spec: Op reads both operands and produces a new
primitive value (spec section 4.5; apply_op module not in snapshot). -/
def applyOp (o : BinOp) (lhs rhs : ObjectData) : Except Fault ObjectData :=
  match o, lhs, rhs with
  | .plus, .uintObj a, .uintObj b => .ok (.uintObj (a + b))
  | .times, .uintObj a, .uintObj b => .ok (.uintObj (a * b))
  | .equalTest, .uintObj a, .uintObj b => .ok (.boolObj (a == b))
  | _, _, _ => .error .typeMismatch

/-- Allocate a primitive object with a fresh Our permission. -/
def Machine.newOurValue (m : Machine) (od : ObjectData) : Value × Machine :=
  let (o, m1) := m.newObject od
  let (p, m2) := m1.newPermission ourPermission
  ({ object := o, permission := p }, m2)

/-- Give-evaluate a list of places left to right, threading the
machine. -/
def givePlaces (m : Machine) : List PlaceData → Except Fault (List Value × Machine)
  | [] => .ok ([], m)
  | p :: rest => do
      let (v, m1) ← givePlace m p
      let (vs, m2) ← givePlaces m1 rest
      .ok (v :: vs, m2)

/-- Expression evaluation (Stepper::eval_expr, step.rs lines 380-424):
literals allocate primitive objects with fresh Our permissions, Unit
allocates a unit object, GiveShare/Lease/Give delegate to the
permission algebra, Tuple give-evaluates its places and builds a tuple
with a fresh My permission, Op traverses both operands and applies the
operator, Error faults. -/
def evalExpr (m : Machine) : ExprData → Except Fault (Value × Machine)
  | .booleanLiteral b => .ok (m.newOurValue (.boolObj b))
  | .integerLiteral v => .ok (m.newOurValue (.uintObj v))
  | .stringLiteral s => .ok (m.newOurValue (.stringObj s))
  | .unit => .ok (m.newOurValue .unitObj)
  | .giveShare p => sharePlace m p
  | .lease p => leasePlace m p
  | .give p => givePlace m p
  | .tuple ps => do
      let (fields, m1) ← givePlaces m ps
      let (o, m2) := m1.newObject (.tupleObj fields)
      let (perm, m3) := m2.newPermission myPermission
      .ok ({ object := o, permission := perm }, m3)
  | .op lhs o rhs => do
      let trL ← traverseToObject m lhs
      let trR ← traverseToObject m rhs
      match m.objects[trL.object]?, m.objects[trR.object]? with
      | some odL, some odR => do
          let od ← applyOp o odL odR
          .ok (m.newOurValue od)
      | _, _ => .error (.machineBug "dangling object")
  | .error => .error .compilationError

/-! ### The stepper (step.rs) -/

/-- A suspended native call: function identity plus captured argument
values (thunk module, modelled from the spec's thunk protocol). -/
structure RustThunkData where
  name : String
  arguments : List Value
  deriving Repr, DecidableEq

/-- ControlFlow returned by step (step.rs lines 60-71). -/
inductive ControlFlow where
  | next
  | done (pc : ProgramCounter) (value : Value)
  | await (thunk : RustThunkData)
  deriving Repr, DecidableEq

/-- Kernel callbacks observed during a step (kernel interface, spec
section 6). -/
inductive KernelEvent where
  | breakpointStart (file : String) (index : Nat)
  | breakpointEnd (file : String) (index : Nat) (inFlight : Option Value)
  deriving Repr, DecidableEq

/-- Result of Stepper::call (call module; shape visible from step.rs). -/
inductive CallResult where
  | returned (v : Value)
  | pushedNewFrame
  deriving Repr, DecidableEq

/-- Result of Stepper::await_thunk (await_thunk module; shape visible
from step.rs). -/
inductive AwaitResult where
  | pushedNewFrame
  | rustAwait (t : RustThunkData)
  deriving Repr, DecidableEq

/-- Build the frame for a user function call: parameters occupy the
first slots, remaining locals start uninitialized. -/
def frameFor (_prog : Program) (f : Nat) (bd : BirData) (args : List Value) : Frame :=
  { pc := { bir := f, basicBlock := bd.startBlock, statement := 0 },
    vars := args.map some ++ List.replicate (bd.localCount - args.length) none }

/-- Modelled from the spec: calling looks up the callee; a native
intrinsic is invoked directly (yielding a suspended native thunk value
to be awaited), a class call constructs an instance, and a user
function pushes a new frame (spec section 4.5). -/
def callFn (m : Machine) (function : PlaceData) (arguments : List PlaceData) :
    Except Fault (CallResult × Machine) := do
  let callUser := fun (m1 : Machine) (f : Nat) => do
    let (args, m2) ← givePlaces m1 arguments
    match m2.program.birs[f]? with
    | none => .error (.machineBug "dangling function")
    | some bd => .ok (CallResult.pushedNewFrame, m2.pushFrame (frameFor m2.program f bd args))
  let callClass := fun (m1 : Machine) (c : Nat) => do
    let (args, m2) ← givePlaces m1 arguments
    let (o, m3) := m2.newObject (.instanceObj c args)
    let (p, m4) := m3.newPermission myPermission
    .ok (CallResult.returned { object := o, permission := p }, m4)
  let callNative := fun (m1 : Machine) (name : String) => do
    let (args, m2) ← givePlaces m1 arguments
    let (o, m3) := m2.newObject (.rustThunk name args)
    let (p, m4) := m3.newPermission myPermission
    .ok (CallResult.returned { object := o, permission := p }, m4)
  match function with
  | .functionRef f => callUser m f
  | .classRef c => callClass m c
  | .intrinsicRef n => callNative m n
  | place => do
      let tr ← traverseToObject m place
      match m.objects[tr.object]? with
      | some (.functionObj f) => callUser m f
      | some (.classObj c) => callClass m c
      | some (.intrinsicObj n) => callNative m n
      | some _ => .error .typeMismatch
      | none => .error (.machineBug "dangling object")

/-- Modelled from the spec: awaiting a thunk gives the thunk value; a
thunk wrapping a user async function pushes its frame, any other
(native) thunk is handed back to the driver (spec section 4.5). -/
def awaitThunk (m : Machine) (place : PlaceData) : Except Fault (AwaitResult × Machine) := do
  let (v, m1) ← givePlace m place
  match m1.objects[v.object]? with
  | some (.thunk f args) =>
      match m1.program.birs[f]? with
      | none => .error (.machineBug "dangling function")
      | some bd => .ok (AwaitResult.pushedNewFrame, m1.pushFrame (frameFor m1.program f bd args))
  | some (.rustThunk name args) =>
      .ok (AwaitResult.rustAwait { name := name, arguments := args }, m1)
  | some _ => .error .typeMismatch
  | none => .error (.machineBug "dangling object")

/-- Peek the in-flight place: read without revocation, discarding every
traversal error; on success the value pairs the leaf object with the
last traversed permission (Stepper::peek_place, step.rs 213-220). -/
def peekPlace (m : Machine) (place : PlaceData) : Option Value :=
  match traverseToObject m place with
  | .error _ => none
  | .ok tr =>
      match tr.traversed.getLast? with
      | none => none
      | some p => some { object := tr.object, permission := p }

/-- Read a place to a boolean (Stepper::eval_place_to_bool). -/
def evalPlaceToBool (m : Machine) (place : PlaceData) : Except Fault Bool := do
  let tr ← traverseToObject m place
  match m.objects[tr.object]? with
  | some (.boolObj b) => .ok b
  | some _ => .error .typeMismatch
  | none => .error (.machineBug "dangling object")

/-- One statement (Stepper::step_statement, step.rs 164-211): Assign
evaluates the expression to a value and then assigns it to the target;
the breakpoint statements invoke the kernel with a snapshot producer
and have no semantic effect on the machine.  The kernel itself is
external and modelled as always succeeding; its invocations are
reported as events. -/
def stepStatement (m : Machine) : StatementData → Except Fault (Machine × List KernelEvent)
  | .assign place expr => do
      let (value, m1) ← evalExpr m expr
      let m2 ← assignPlace m1 place value
      .ok (m2, [])
  | .breakpointStart filename index =>
      .ok (m, [.breakpointStart filename index])
  | .breakpointEnd filename index _expr inFlightPlace =>
      .ok (m, [.breakpointEnd filename index (inFlightPlace.bind (peekPlace m))])

/-- resume_with (step.rs 335-358): the top frame must be at a
terminator of the form Assign(place, Call-or-Await, next); the value is
stored into that place and the PC advances to the start of next.  At
any other control point the interpreter panics. -/
def resumeWith (m : Machine) (value : Value) : Except Fault Machine :=
  match m.topFrame with
  | none => .error (.machineBug "no calling frame")
  | some top =>
      match m.program.birs[top.pc.bir]? with
      | none => .error (.machineBug "dangling bir")
      | some bd =>
          match bd.basicBlocks[top.pc.basicBlock]? with
          | none => .error (.machineBug "dangling basic block")
          | some bb =>
              if top.pc.statement = bb.statements.length then
                match bb.terminator with
                | .assign place _ next => do
                    let newPc := top.pc.moveToBlock next
                    let m1 ← assignPlace m place value
                    .ok (m1.setPc newPc)
                | _ => .error (.machineBug "calling frame should be at an assign terminator")
              else .error (.machineBug "calling frame should be at a terminator")

/-- One terminator (Stepper::step_terminator, step.rs 234-323). -/
def stepTerminator (m : Machine) (pc : ProgramCounter) :
    TerminatorData → Except Fault (ControlFlow × Machine)
  | .startAtomic b => .ok (.next, m.setPc (pc.moveToBlock b))
  | .endAtomic b => .ok (.next, m.setPc (pc.moveToBlock b))
  | .goto b => .ok (.next, m.setPc (pc.moveToBlock b))
  | .ifTerm place ifTrue ifFalse => do
      let b ← evalPlaceToBool m place
      if b then .ok (.next, m.setPc (pc.moveToBlock ifTrue))
      else .ok (.next, m.setPc (pc.moveToBlock ifFalse))
  | .assign destination (.call function arguments _labels) nextBlock => do
      let (res, m1) ← callFn m function arguments
      match res with
      | .returned returnValue => do
          let m2 ← assignPlace m1 destination returnValue
          .ok (.next, m2.setPc (pc.moveToBlock nextBlock))
      | .pushedNewFrame => .ok (.next, m1)
  | .assign _destination (.await thunkPlace) _nextBlock => do
      let (res, m1) ← awaitThunk m thunkPlace
      match res with
      | .pushedNewFrame => .ok (.next, m1)
      | .rustAwait rustThunk => .ok (.await rustThunk, m1)
  | .returnTerm place => do
      let (returnValue, m1) ← givePlace m place
      let m2 := m1.clearFrame
      let m2g := m2.gc [returnValue]
      let m3 := m2g.popFrame
      if m3.stack.isEmpty then
        .ok (.done pc returnValue, m3)
      else do
        let m4 ← resumeWith m3 returnValue
        .ok (.next, m4)
  | .error => .error .compilationError
  | .panicTerm => .error .panicFault

/-- One full step (Stepper::step, step.rs 91-138): execute one
statement or one terminator, then run the collector with the
control-flow-specific roots. -/
def step (m : Machine) : Except Fault (ControlFlow × Machine × List KernelEvent) :=
  match m.topFrame with
  | none => .error (.machineBug "no frame")
  | some fr =>
      let pc := fr.pc
      match m.program.birs[pc.bir]? with
      | none => .error (.machineBug "dangling bir")
      | some bd =>
          match bd.basicBlocks[pc.basicBlock]? with
          | none => .error (.machineBug "dangling basic block")
          | some bb =>
              match bb.statements[pc.statement]? with
              | some st => do
                  let (m1, events) ← stepStatement m st
                  let m2 := m1.setPc { pc with statement := pc.statement + 1 }
                  .ok (.next, m2.gc [], events)
              | none =>
                  if pc.statement = bb.statements.length then do
                    let (cf, m1) ← stepTerminator m pc bb.terminator
                    let m2 := match cf with
                      | .next => m1.gc []
                      | .await t => m1.gc t.arguments
                      | .done _ v => m1.gc [v]
                    .ok (cf, m2, [])
                  else .error (.machineBug "statement index out of range")

/-! ### Heap-graph snapshot (heap_graph module).

The snapshot node types themselves are not part of the source snapshot
(only heap_graph/graphviz.rs is); they are modelled from the spec: a
self-contained arena of stack frame nodes, object nodes, data nodes and
permission nodes, every reference being an index into the snapshot. -/

/-- Modelled from the spec: a permission node of a snapshot carries a
human-readable label and optional tenant and lessor links. -/
structure PermissionNodeData where
  label : String
  tenant : Option Nat
  lessor : Option Nat
  deriving Repr, DecidableEq

/-- Modelled from the spec: a data node holds the debug rendering of a
literal value; the stored string stands for the Rust debug formatting
of the boxed debug field. -/
structure DataNodeData where
  debug : String
  deriving Repr, DecidableEq

/-- Target of a value edge (graphviz.rs ValueEdgeTarget): an object, a
class, a function, or inline data. -/
inductive ValueEdgeTarget where
  | object (o : Nat)
  | classNode (c : Nat)
  | functionNode (f : Nat)
  | data (d : Nat)
  deriving Repr, DecidableEq

/-- A value edge: the permission it is held through and its target. -/
structure ValueEdge where
  permission : Nat
  target : ValueEdgeTarget
  deriving Repr, DecidableEq

/-- Modelled from the spec: an object node of a snapshot has a class
and field values. -/
structure ObjectNodeData where
  cls : Nat
  fields : List ValueEdge
  deriving Repr, DecidableEq

/-- Modelled from the spec: a captured local variable: optional user
name, the variable id (used for temporaries), and its value. -/
structure LocalVariableEdge where
  name : Option String
  id : Nat
  value : ValueEdge
  deriving Repr, DecidableEq

/-- Modelled from the spec: a captured stack frame: function name,
variables, and the optional in-flight value. -/
structure StackFrameNodeData where
  functionName : String
  vars : List LocalVariableEdge
  inFlightValue : Option ValueEdge
  deriving Repr, DecidableEq

/-- Modelled from the spec: a heap-graph snapshot, self-contained. -/
structure HeapGraph where
  stack : List StackFrameNodeData
  objects : List ObjectNodeData
  datas : List DataNodeData
  permissions : List PermissionNodeData
  classes : List ClassData
  functionNames : List String
  deriving Repr, DecidableEq

/-! ### The graphviz renderer (heap_graph/graphviz.rs) -/

/-- A place in the graphviz output: node id and row port. -/
structure GraphvizPlace where
  node : String
  port : Nat
  deriving Repr, DecidableEq

/-- An accumulated value edge: source place, target node id, and the
permission it is labeled by. -/
structure GraphvizValueEdge where
  source : GraphvizPlace
  target : String
  permission : Nat
  deriving Repr, DecidableEq

/-- The GraphvizWriter state: the temporaries flag, the queue of nodes
still to print, the insertion-ordered set of nodes ever named, the
accumulated value edges, the permission-to-place map, the node-name
prefix, the current indentation, and the lines written so far. -/
structure GvState where
  includeTemporaries : Bool
  nodeQueue : List ValueEdgeTarget
  nodeSet : List ValueEdgeTarget
  valueEdgeList : List GraphvizValueEdge
  permissionsMap : List (Nat × GraphvizPlace)
  np : String
  indentLevel : Nat
  out : List String
  deriving Repr, DecidableEq

/-- n spaces. -/
def pad (n : Nat) : String := String.mk (List.replicate n ' ')

/-- Write one line at the current indentation. -/
def GvState.println (st : GvState) (s : String) : GvState :=
  { st with out := st.out ++ [pad st.indentLevel ++ s] }

/-- Write a line, then increase the indentation. -/
def GvState.indent (st : GvState) (s : String) : GvState :=
  let st1 := st.println s
  { st1 with indentLevel := st1.indentLevel + 2 }

/-- Decrease the indentation, then write a line. -/
def GvState.undent (st : GvState) (s : String) : GvState :=
  let st1 := { st with indentLevel := st.indentLevel - 2 }
  st1.println s

/-- GraphvizWriter::node_name: look the target up in the insertion-
ordered node set; a new target is appended to the set and pushed on the
queue; the name is the prefix followed by "node" and the set index. -/
def GvState.nodeName (st : GvState) (t : ValueEdgeTarget) : String × GvState :=
  match st.nodeSet.findIdx? (fun x => x == t) with
  | some i => (st.np ++ "node" ++ toString i, st)
  | none =>
      (st.np ++ "node" ++ toString st.nodeSet.length,
       { st with nodeSet := st.nodeSet ++ [t], nodeQueue := t :: st.nodeQueue })

/-- GraphvizWriter::push_value_edge. -/
def GvState.pushValueEdge (st : GvState) (source : String) (sourcePort : Nat)
    (edge : ValueEdge) : GvState :=
  let (name, st1) := st.nodeName edge.target
  { st1 with valueEdgeList := st1.valueEdgeList ++
      [{ source := { node := source, port := sourcePort },
         target := name, permission := edge.permission }] }

/-- html_escape::encode_text escapes ampersand, less-than and
greater-than. -/
def htmlEscapeChar (c : Char) : String :=
  if c = '&' then "&amp;"
  else if c = '<' then "&lt;"
  else if c = '>' then "&gt;"
  else String.mk [c]

/-- HTML-escape a string. -/
def htmlEscape (s : String) : String :=
  String.join (s.toList.map htmlEscapeChar)

/-- Rust Debug formatting of a string: wrapped in double quotes with
the common escapes. -/
def rustDebugEscapeChar (c : Char) : String :=
  if c = '"' then "\\\""
  else if c = '\\' then "\\\\"
  else if c = '\n' then "\\n"
  else if c = '\t' then "\\t"
  else if c = '\r' then "\\r"
  else String.mk [c]

/-- Rust Debug formatting of a string value. -/
def rustDebugQuote (s : String) : String :=
  "\"" ++ String.join (s.toList.map rustDebugEscapeChar) ++ "\""

/-- HeapGraph::data_str (graphviz.rs 296-305): debug-format the data
node, HTML-escape it, and keep it whole when the escaped form is
shorter than 40 characters; otherwise emit the first 20 characters, the
elision marker, and the last 20 characters. -/
def HeapGraph.dataStr (g : HeapGraph) (d : Nat) : String :=
  let dbg := match g.datas[d]? with
    | some dd => dd.debug
    | none => ""
  let data := htmlEscape dbg
  if data.length < 40 then data
  else
    let len := data.length - 20
    data.take 20 ++ "[...]" ++ data.drop len

/-- HeapGraph::print_field (graphviz.rs 265-294): an unnamed field
prints nothing; a named field records its place under the edge's
permission, then prints a table row; data targets are inlined into the
row, anything else prints a bare row and accumulates a value edge. -/
def printField (g : HeapGraph) (st : GvState) (edge : ValueEdge) (name : Option String)
    (source : String) (index : Nat) : GvState :=
  match name with
  | none => st
  | some nm =>
      let newPlace : GraphvizPlace := { node := source, port := index }
      let st1 := { st with permissionsMap := st.permissionsMap ++ [(edge.permission, newPlace)] }
      match edge.target with
      | .data d =>
          st1.println ("<tr><td port=\"" ++ toString index ++ "\">" ++ nm ++ ": " ++
            g.dataStr d ++ "</td></tr>")
      | _ =>
          let st2 := st1.println ("<tr><td port=\"" ++ toString index ++ "\">" ++ nm ++
            "</td></tr>")
          st2.pushValueEdge source index edge

/-- HeapGraph::print_fields: zip edges with names, printing each field
at consecutive port indices, and return the next free index. -/
def printFields (g : HeapGraph) (st : GvState) (source : String) :
    List (Option String) → List ValueEdge → Nat → Nat × GvState
  | n :: ns, e :: es, index =>
      let st1 := printField g st e n source index
      printFields g st1 source ns es (index + 1)
  | _, _, index => (index, st)

/-- The displayed name of a captured variable (graphviz.rs 174-178):
its user name, or its debug id when temporaries are included, or
nothing. -/
def variableName (includeTemporaries : Bool) (v : LocalVariableEdge) : Option String :=
  match v.name with
  | some w => some w
  | none =>
      if includeTemporaries then some ("LocalVariable(" ++ toString v.id ++ ")")
      else none

/-- One stack frame inside the stack table (graphviz.rs 168-198): the
function-name header row, the variable rows, and the in-flight row,
whose source node id is the unprefixed literal "stack". -/
def printStackFrame (g : HeapGraph) (st : GvState) (stackNodeName : String)
    (fr : StackFrameNodeData) (fieldIndex : Nat) : Nat × GvState :=
  let st1 := st.println ("<tr><td border=\"1\">" ++ fr.functionName ++ "</td></tr>")
  let names := fr.vars.map (variableName st.includeTemporaries)
  let (fi2, st2) := printFields g st1 stackNodeName names (fr.vars.map (fun v => v.value))
    fieldIndex
  match fr.inFlightValue with
  | some e =>
      let st3 := printField g st2 e (some "(in-flight)") "stack" fi2
      (fi2 + 1, st3)
  | none => (fi2, st2)

/-- All stack frames, threading the running field index. -/
def printStackFrames (g : HeapGraph) (st : GvState) (stackNodeName : String) :
    List StackFrameNodeData → Nat → Nat × GvState
  | [], fieldIndex => (fieldIndex, st)
  | fr :: rest, fieldIndex =>
      let (fi1, st1) := printStackFrame g st stackNodeName fr fieldIndex
      printStackFrames g st1 stackNodeName rest fi1

/-- HeapGraph::print_stack (graphviz.rs 155-204). -/
def printStack (g : HeapGraph) (st : GvState) : GvState :=
  let np := st.np
  let st1 := st.indent ("subgraph cluster_" ++ np ++ "stack \x7b")
  let st2 := st1.println "label=<<b>stack</b>>"
  let st3 := st2.println "rank=\"source\";"
  let stackNodeName := np ++ "stack"
  let st4 := st3.indent (stackNodeName ++ "[")
  let st5 := st4.println "shape=\"none\";"
  let st6 := st5.indent "label=<"
  let st7 := st6.println "<table border=\"0\">"
  let (_, st8) := printStackFrames g st7 stackNodeName g.stack 0
  let st9 := st8.println "</table>"
  let st10 := st9.undent ">;"
  let st11 := st10.undent "];"
  st11.undent "\x7d"

/-- HeapGraph::print_heap_node (graphviz.rs 213-248). -/
def printHeapNode (g : HeapGraph) (st : GvState) (t : ValueEdgeTarget) : GvState :=
  let (name, st0) := st.nodeName t
  let st1 := st0.indent (name ++ " [")
  let st2 :=
    match t with
    | .object o =>
        let od := (g.objects[o]?).getD { cls := 0, fields := [] }
        let cd := (g.classes[od.cls]?).getD { name := "", fields := [] }
        let fieldNames := cd.fields.map (fun f => some f)
        let sA := st1.indent "label = <<table border=\"0\">"
        let sB := sA.println ("<tr><td border=\"1\">" ++ cd.name ++ "</td></tr>")
        let (_, sC) := printFields g sB name fieldNames od.fields 0
        sC.undent "</table>>"
    | .classNode c =>
        let cd := (g.classes[c]?).getD { name := "", fields := [] }
        st1.println ("label = <<b>" ++ cd.name ++ "</b>>")
    | .functionNode f =>
        let fn := (g.functionNames[f]?).getD ""
        st1.println ("label = <<b>" ++ fn ++ "()</b>>")
    | .data d =>
        st1.println ("label = " ++ rustDebugQuote (g.dataStr d))
  st2.undent "];"

/-- HeapGraph::print_heap (graphviz.rs 206-211): pop and print queued
nodes until the queue empties.  The fuel bounds the iteration; the
queue only ever receives targets newly inserted into the node set, so
any fuel beyond the target count of the snapshot is enough. -/
def printHeap (g : HeapGraph) : Nat → GvState → GvState
  | 0, st => st
  | Nat.succ fuel, st =>
      match st.nodeQueue with
      | [] => st
      | t :: rest => printHeap g fuel (printHeapNode g { st with nodeQueue := rest } t)

/-- The edge line printed for one accumulated value edge (graphviz.rs
118-133): debug-quoted source node, source port, debug-quoted target,
the permission's label, and style dotted exactly when the permission
has a tenant, solid otherwise. -/
def edgeLine (g : HeapGraph) (ge : GraphvizValueEdge) : String :=
  let pd := (g.permissions[ge.permission]?).getD { label := "", tenant := none, lessor := none }
  let style := if pd.tenant.isSome then "dotted" else "solid"
  rustDebugQuote ge.source.node ++ ":" ++ toString ge.source.port ++ " -> " ++
    rustDebugQuote ge.target ++ " [label=" ++ rustDebugQuote pd.label ++
    ", style=" ++ rustDebugQuote style ++ "];"

/-- HeapGraph::stack_and_heap (graphviz.rs 112-137): print the stack,
drain the node queue, then take the accumulated value edges and print
one edge line each. -/
def stackAndHeap (g : HeapGraph) (fuel : Nat) (st : GvState) : GvState :=
  let st1 := printStack g st
  let st2 := printHeap g fuel st1
  let edges := st2.valueEdgeList
  let st3 := { st2 with valueEdgeList := [] }
  edges.foldl (fun acc ge => acc.println (edgeLine g ge)) st3

/-- The initial writer state (graphviz.rs 10-21 and 34-45). -/
def initGvState (includeTemporaries : Bool) : GvState :=
  { includeTemporaries := includeTemporaries, nodeQueue := [], nodeSet := [],
    valueEdgeList := [], permissionsMap := [], np := "", indentLevel := 0, out := [] }

/-- Ample print_heap fuel for a snapshot: more than the number of
targets that can ever enter the node queue. -/
def heapFuel (g : HeapGraph) : Nat :=
  3 * (g.objects.length + g.classes.length + g.functionNames.length + g.datas.length) + 1

/-- HeapGraph::graphviz_alone (graphviz.rs 9-25): the digraph wrapper
around a single stack-and-heap rendering, no name prefix. -/
def graphvizAlone (g : HeapGraph) (includeTemporaries : Bool) : List String :=
  let st := initGvState includeTemporaries
  let st1 := st.indent "digraph \x7b"
  let st2 := st1.println "node[shape = \"note\"];"
  let st3 := st2.println "rankdir = \"LR\";"
  let st4 := stackAndHeap g (heapFuel g) st3
  (st4.undent "\x7d").out

/-- The writer state just after the paired header and the opening of
the after cluster (graphviz.rs 34-49): the after cluster is rendered
first. -/
def afterClusterEntry (includeTemporaries : Bool) : GvState :=
  let st := initGvState includeTemporaries
  let st1 := st.indent "digraph \x7b"
  let st2 := st1.println "node[shape = \"note\"];"
  let st3 := st2.println "rankdir = \"LR\";"
  let st4 := { st3 with np := "after" }
  let st5 := st4.indent "subgraph cluster_after \x7b"
  st5.println "label=<<b>after</b>>"

/-- The writer state after rendering the after cluster's contents. -/
def afterClusterExit (gEnd : HeapGraph) (includeTemporaries : Bool) (fuel : Nat) : GvState :=
  stackAndHeap gEnd fuel (afterClusterEntry includeTemporaries)

/-- The writer state just after closing the after cluster and opening
the before cluster (graphviz.rs 51-55); the writer, and in particular
its node set, is shared between the clusters. -/
def beforeClusterEntry (gEnd : HeapGraph) (includeTemporaries : Bool) (fuel : Nat) : GvState :=
  let st6 := (afterClusterExit gEnd includeTemporaries fuel).undent "\x7d"
  let st7 := { st6 with np := "before" }
  let st8 := st7.indent "subgraph cluster_before \x7b"
  st8.println "label=<<b>before</b>>"

/-- The writer state after rendering the before cluster's contents. -/
def beforeClusterExit (gBefore gEnd : HeapGraph) (includeTemporaries : Bool)
    (fuel : Nat) : GvState :=
  stackAndHeap gBefore fuel (beforeClusterEntry gEnd includeTemporaries fuel)

/-- HeapGraph::graphviz_paired (graphviz.rs 28-63): gBefore is self
(the state at the start of the breakpoint), gEnd the state at the end;
the after cluster is rendered first, then the before cluster, with one
shared writer. -/
def graphvizPaired (gBefore : HeapGraph) (includeTemporaries : Bool)
    (gEnd : HeapGraph) : List String :=
  let fuel := heapFuel gBefore + heapFuel gEnd
  (((beforeClusterExit gBefore gEnd includeTemporaries fuel).undent "\x7d").undent "\x7d").out

/-- The lines contributed by the after cluster's contents. -/
def afterClusterContents (gEnd : HeapGraph) (includeTemporaries : Bool)
    (fuel : Nat) : List String :=
  (afterClusterExit gEnd includeTemporaries fuel).out.drop
    (afterClusterEntry includeTemporaries).out.length

/-- The lines contributed by the before cluster's contents. -/
def beforeClusterContents (gBefore gEnd : HeapGraph) (includeTemporaries : Bool)
    (fuel : Nat) : List String :=
  (beforeClusterExit gBefore gEnd includeTemporaries fuel).out.drop
    (beforeClusterEntry gEnd includeTemporaries fuel).out.length

/-- Erase a node-name prefix from a rendered line: occurrences of the
prefixed stack node id and the prefixed heap node ids lose the prefix. -/
def eraseNp (np : String) (s : String) : String :=
  (s.replace (np ++ "node") "node").replace (np ++ "stack") "stack"

/-- Does every value reachable from the stack rows target a data node
(so that no heap nodes are ever queued)? -/
def allDataGraph (g : HeapGraph) : Bool :=
  g.stack.all (fun fr =>
    fr.vars.all (fun v => match v.value.target with | .data _ => true | _ => false) &&
    (match fr.inFlightValue with
     | some e => match e.target with | .data _ => true | _ => false
     | none => true))

/-! ### Concrete machines and snapshots used to evaluate the claims -/

/-- A program with a single two-field class Point. -/
def pointProgram : Program :=
  { birs := [], classes := [{ name := "Point", fields := ["x", "y"] }] }

/-- The machine reached by executing p = Point(22, 44); q = p.lease:
slot 0 (p) holds the instance through a My permission whose tenant is
slot 1's (q's) Leased permission. -/
def pointMachine : Machine :=
  { program := pointProgram
    stack := [{ pc := { bir := 0, basicBlock := 0, statement := 0 },
                vars := [some { object := 2, permission := 2 },
                         some { object := 2, permission := 3 }] }]
    objects := [.uintObj 22, .uintObj 44,
                .instanceObj 0 [{ object := 0, permission := 0 },
                                { object := 1, permission := 1 }]]
    permissions := [ourPermission, ourPermission,
                    { kind := .my, lessor := none, tenant := some 3, canceled := false },
                    { kind := .leased, lessor := some 2, tenant := none, canceled := false }] }

/-- The statement p.x = q.y over pointMachine. -/
def pointAssignStatement : StatementData :=
  .assign (.dot (.localVariable 0) "x") (.give (.dot (.localVariable 1) "y"))

/-- A one-block BIR that immediately returns local 0. -/
def returnBir : BirData :=
  { basicBlocks := [{ statements := [], terminator := .returnTerm (.localVariable 0) }],
    startBlock := 0, numParameters := 0, localCount := 1 }

/-- A machine whose single frame sits at the Return terminator of
returnBir with slot 0 initialized. -/
def returnMachine : Machine :=
  { program := { birs := [returnBir], classes := [] }
    stack := [{ pc := { bir := 0, basicBlock := 0, statement := 0 },
                vars := [some { object := 0, permission := 0 }] }]
    objects := [.uintObj 7]
    permissions := [ourPermission] }

/-- A one-block BIR whose terminator awaits the thunk in local 1 and
assigns the result to local 0. -/
def awaitBir : BirData :=
  { basicBlocks := [{ statements := [],
                      terminator := .assign (.localVariable 0)
                        (.await (.localVariable 1)) 0 }],
    startBlock := 0, numParameters := 0, localCount := 2 }

/-- A machine whose single frame sits at the Await terminator of
awaitBir with a native thunk in slot 1. -/
def awaitMachine : Machine :=
  { program := { birs := [awaitBir], classes := [] }
    stack := [{ pc := { bir := 0, basicBlock := 0, statement := 0 },
                vars := [none, some { object := 0, permission := 0 }] }]
    objects := [.rustThunk "print" []]
    permissions := [myPermission] }

/-- A snapshot whose single variable targets an object node: the
smallest snapshot that makes the paired renderer queue a heap node. -/
def objectSnapshot : HeapGraph :=
  { stack := [{ functionName := "main",
                vars := [{ name := some "p", id := 0,
                           value := { permission := 0, target := .object 0 } }],
                inFlightValue := none }]
    objects := [{ cls := 0, fields := [] }]
    datas := []
    permissions := [{ label := "my", tenant := none, lessor := none }]
    classes := [{ name := "Pt", fields := [] }]
    functionNames := [] }

/-- A snapshot whose every value targets a data node. -/
def dataSnapshot : HeapGraph :=
  { stack := [{ functionName := "main",
                vars := [{ name := some "x", id := 0,
                           value := { permission := 0, target := .data 0 } }],
                inFlightValue := none }]
    objects := []
    datas := [{ debug := "\"hi\"" }]
    permissions := [{ label := "our", tenant := none, lessor := none }]
    classes := []
    functionNames := [] }

/-- A snapshot whose single frame carries an in-flight value targeting
an object node. -/
def inFlightSnapshot : HeapGraph :=
  { stack := [{ functionName := "main",
                vars := []
                inFlightValue := some { permission := 0, target := .object 0 } }]
    objects := [{ cls := 0, fields := [] }]
    datas := []
    permissions := [{ label := "my", tenant := none, lessor := none }]
    classes := [{ name := "Pt", fields := [] }]
    functionNames := [] }

/-- A snapshot exercising both edge styles: one variable held through a
permission with a tenant, one through a permission without. -/
def twoEdgeSnapshot : HeapGraph :=
  { stack := [{ functionName := "main",
                vars := [{ name := some "p", id := 0,
                           value := { permission := 0, target := .object 0 } },
                         { name := some "q", id := 1,
                           value := { permission := 1, target := .object 0 } }],
                inFlightValue := none }]
    objects := [{ cls := 0, fields := [] }]
    datas := []
    permissions := [{ label := "my", tenant := some 1, lessor := none },
                    { label := "leased(p)", tenant := none, lessor := some 0 }]
    classes := [{ name := "Pt", fields := [] }]
    functionNames := [] }

/-- A 40-character data string (escaping leaves it unchanged). -/
def fortyString : String := String.mk (List.replicate 40 'a')

/-- A snapshot with a single data node whose escaped label has exactly
40 characters. -/
def fortySnapshot : HeapGraph :=
  { stack := [], objects := [], datas := [{ debug := fortyString }],
    permissions := [], classes := [], functionNames := [] }

/-- A snapshot with a single data node whose escaped label has 45
characters. -/
def fortyFiveSnapshot : HeapGraph :=
  { stack := [], objects := [], datas := [{ debug := String.mk (List.replicate 45 'b') }],
    permissions := [], classes := [], functionNames := [] }

/-- A snapshot with a single short data node. -/
def shortSnapshot : HeapGraph :=
  { stack := [], objects := [], datas := [{ debug := "\"hi\"" }],
    permissions := [], classes := [], functionNames := [] }

/-! ### Auxiliary predicates and pure mirrors used in the statements -/

/-- The machine is positioned at the given terminator: the top frame's
PC denotes the terminator of its basic block, and that terminator is t. -/
def atTerminator (m : Machine) (t : TerminatorData) : Prop :=
  ∃ fr bd bb, m.topFrame = some fr ∧
    m.program.birs[fr.pc.bir]? = some bd ∧
    bd.basicBlocks[fr.pc.basicBlock]? = some bb ∧
    fr.pc.statement = bb.statements.length ∧
    bb.terminator = t

/-- The machine is at an Await terminator whose thunk place resolves to
a native (Rust) thunk. -/
def atNativeAwait (m : Machine) : Prop :=
  ∃ target place next t m2,
    atTerminator m (.assign target (.await place) next) ∧
    awaitThunk m place = .ok (.rustAwait t, m2)

/-- The machine is at a Return terminator and popping the current frame
empties the stack. -/
def atFinalReturn (m : Machine) : Prop :=
  ∃ place, atTerminator m (.returnTerm place) ∧ m.stack.length = 1

/-- The lines printed by print_field: the template mirror of printField
as a pure function of the snapshot, the indentation, the field and its
port index. -/
def printFieldLines (g : HeapGraph) (ind : Nat) (edge : ValueEdge) (name : Option String)
    (index : Nat) : List String :=
  match name with
  | none => []
  | some nm =>
      match edge.target with
      | .data d =>
          [pad ind ++ "<tr><td port=\"" ++ toString index ++ "\">" ++ nm ++ ": " ++
            g.dataStr d ++ "</td></tr>"]
      | _ =>
          [pad ind ++ "<tr><td port=\"" ++ toString index ++ "\">" ++ nm ++ "</td></tr>"]

/-- The lines printed by print_fields. -/
def printFieldsLines (g : HeapGraph) (ind : Nat) :
    List (Option String) → List ValueEdge → Nat → List String
  | n :: ns, e :: es, index =>
      printFieldLines g ind e n index ++ printFieldsLines g ind ns es (index + 1)
  | _, _, _ => []

/-- The lines printed for one stack frame. -/
def printStackFrameLines (g : HeapGraph) (flag : Bool) (ind : Nat)
    (fr : StackFrameNodeData) (fieldIndex : Nat) : List String :=
  (pad ind ++ "<tr><td border=\"1\">" ++ fr.functionName ++ "</td></tr>") ::
  (printFieldsLines g ind (fr.vars.map (variableName flag)) (fr.vars.map (fun v => v.value))
    fieldIndex ++
   (match fr.inFlightValue with
    | some e => printFieldLines g ind e (some "(in-flight)") (fieldIndex + fr.vars.length)
    | none => []))

/-- The first port index after a frame's rows. -/
def frameNextIndex (fr : StackFrameNodeData) (fieldIndex : Nat) : Nat :=
  fieldIndex + fr.vars.length + (if fr.inFlightValue.isSome then 1 else 0)

/-- The lines printed for all stack frames. -/
def printStackFramesLines (g : HeapGraph) (flag : Bool) (ind : Nat) :
    List StackFrameNodeData → Nat → List String
  | [], _ => []
  | fr :: rest, fieldIndex =>
      printStackFrameLines g flag ind fr fieldIndex ++
      printStackFramesLines g flag ind rest (frameNextIndex fr fieldIndex)

/-- The full stack-cluster template: the lines print_stack contributes,
as a pure function of the snapshot, the temporaries flag, the node-name
prefix and the entry indentation.  The prefix occurs exactly in the
subgraph header and the stack node id, so instantiating this one
template at the prefixes "before" and "after" is what "identical modulo
node-name prefixes" means for the stack cluster. -/
def stackClusterLines (g : HeapGraph) (flag : Bool) (np : String) (ind : Nat) : List String :=
  [pad ind ++ "subgraph cluster_" ++ np ++ "stack \x7b",
   pad (ind + 2) ++ "label=<<b>stack</b>>",
   pad (ind + 2) ++ "rank=\"source\";",
   pad (ind + 2) ++ np ++ "stack" ++ "[",
   pad (ind + 2 + 2) ++ "shape=\"none\";",
   pad (ind + 2 + 2) ++ "label=<",
   pad (ind + 2 + 2 + 2) ++ "<table border=\"0\">"] ++
  printStackFramesLines g flag (ind + 2 + 2 + 2) g.stack 0 ++
  [pad (ind + 2 + 2 + 2) ++ "</table>",
   pad (ind + 2 + 2) ++ ">;",
   pad (ind + 2) ++ "];",
   pad ind ++ "\x7d"]

/-- A field is inert for the writer's node bookkeeping: it is unnamed
or targets a data node. -/
def inertField (edge : ValueEdge) (name : Option String) : Prop :=
  name = none ∨ ∃ d, edge.target = .data d

/-- Decidable check that the top frame sits at a terminator of the
Assign form (the position resume_with requires). -/
def atAssignTerminatorB (m : Machine) : Bool :=
  match m.topFrame with
  | none => false
  | some fr =>
      match m.program.birs[fr.pc.bir]? with
      | none => false
      | some bd =>
          match bd.basicBlocks[fr.pc.basicBlock]? with
          | none => false
          | some bb =>
              if fr.pc.statement = bb.statements.length then
                match bb.terminator with
                | .assign _ _ _ => true
                | _ => false
              else false

/-- The machine stepStatement produces for the p.x = q.y scenario over
pointMachine: q's leased permission is canceled, p's permission loses
its tenant, and field x now aliases the 44 object. -/
def pointMachineAfter : Machine :=
  { program := pointProgram
    stack := [{ pc := { bir := 0, basicBlock := 0, statement := 0 },
                vars := [some { object := 2, permission := 2 },
                         some { object := 2, permission := 3 }] }]
    objects := [.uintObj 22, .uintObj 44,
                .instanceObj 0 [{ object := 1, permission := 1 },
                                { object := 1, permission := 1 }]]
    permissions := [ourPermission, ourPermission,
                    { kind := .my, lessor := none, tenant := none, canceled := false },
                    { kind := .leased, lessor := some 2, tenant := none, canceled := true }] }

/-- The machine after stepping returnMachine: the stack is empty. -/
def returnMachineAfter : Machine :=
  { returnMachine with stack := [] }

/-- The machine after stepping awaitMachine: the thunk was given out of
slot 1. -/
def awaitMachineAfter : Machine :=
  { awaitMachine with
      stack := [{ pc := { bir := 0, basicBlock := 0, statement := 0 },
                  vars := [none, none] }] }

/-! ### Helper lemmas -/

theorem exceptBindOk {ε α β : Type} {x : Except ε α} {f : α → Except ε β} {b : β}
    (h : x >>= f = .ok b) : ∃ a, x = .ok a ∧ f a = .ok b := by
  cases x with
  | error e => exact absurd h (by simp [Bind.bind, Except.bind])
  | ok a => exact ⟨a, rfl, by simpa [Bind.bind, Except.bind] using h⟩

@[simp]
theorem nodeName_out (st : GvState) (t : ValueEdgeTarget) : (st.nodeName t).2.out = st.out := by
  unfold GvState.nodeName
  cases h : st.nodeSet.findIdx? (fun x => x == t) <;> simp

@[simp]
theorem nodeName_indentLevel (st : GvState) (t : ValueEdgeTarget) :
    (st.nodeName t).2.indentLevel = st.indentLevel := by
  unfold GvState.nodeName
  cases h : st.nodeSet.findIdx? (fun x => x == t) <;> simp

@[simp]
theorem nodeName_np (st : GvState) (t : ValueEdgeTarget) : (st.nodeName t).2.np = st.np := by
  unfold GvState.nodeName
  cases h : st.nodeSet.findIdx? (fun x => x == t) <;> simp

@[simp]
theorem nodeName_flag (st : GvState) (t : ValueEdgeTarget) :
    (st.nodeName t).2.includeTemporaries = st.includeTemporaries := by
  unfold GvState.nodeName
  cases h : st.nodeSet.findIdx? (fun x => x == t) <;> simp

@[simp]
theorem nodeName_valueEdgeList (st : GvState) (t : ValueEdgeTarget) :
    (st.nodeName t).2.valueEdgeList = st.valueEdgeList := by
  unfold GvState.nodeName
  cases h : st.nodeSet.findIdx? (fun x => x == t) <;> simp

@[simp]
theorem pushValueEdge_out (st : GvState) (src : String) (p : Nat) (e : ValueEdge) :
    (st.pushValueEdge src p e).out = st.out := by
  unfold GvState.pushValueEdge
  rcases hn : st.nodeName e.target with ⟨name, st1⟩
  have := nodeName_out st e.target
  rw [hn] at this
  simpa using this

@[simp]
theorem pushValueEdge_indentLevel (st : GvState) (src : String) (p : Nat) (e : ValueEdge) :
    (st.pushValueEdge src p e).indentLevel = st.indentLevel := by
  unfold GvState.pushValueEdge
  rcases hn : st.nodeName e.target with ⟨name, st1⟩
  have := nodeName_indentLevel st e.target
  rw [hn] at this
  simpa using this

@[simp]
theorem pushValueEdge_np (st : GvState) (src : String) (p : Nat) (e : ValueEdge) :
    (st.pushValueEdge src p e).np = st.np := by
  unfold GvState.pushValueEdge
  rcases hn : st.nodeName e.target with ⟨name, st1⟩
  have := nodeName_np st e.target
  rw [hn] at this
  simpa using this

@[simp]
theorem pushValueEdge_flag (st : GvState) (src : String) (p : Nat) (e : ValueEdge) :
    (st.pushValueEdge src p e).includeTemporaries = st.includeTemporaries := by
  unfold GvState.pushValueEdge
  rcases hn : st.nodeName e.target with ⟨name, st1⟩
  have := nodeName_flag st e.target
  rw [hn] at this
  simpa using this

theorem printField_out (g : HeapGraph) (st : GvState) (e : ValueEdge) (n : Option String)
    (src : String) (i : Nat) :
    (printField g st e n src i).out = st.out ++ printFieldLines g st.indentLevel e n i ∧
    (printField g st e n src i).indentLevel = st.indentLevel ∧
    (printField g st e n src i).np = st.np ∧
    (printField g st e n src i).includeTemporaries = st.includeTemporaries := by
  cases n with
  | none => simp [printField, printFieldLines]
  | some nm =>
      cases ht : e.target <;>
        simp [printField, printFieldLines, ht, GvState.println, String.append_assoc]

theorem printField_inert (g : HeapGraph) (st : GvState) (e : ValueEdge) (n : Option String)
    (src : String) (i : Nat) (h : inertField e n) :
    (printField g st e n src i).nodeSet = st.nodeSet ∧
    (printField g st e n src i).nodeQueue = st.nodeQueue ∧
    (printField g st e n src i).valueEdgeList = st.valueEdgeList := by
  rcases h with h | ⟨d, h⟩
  · subst h; simp [printField]
  · cases n with
    | none => simp [printField]
    | some nm => simp [printField, h, GvState.println]

theorem printFields_out (g : HeapGraph) (src : String) :
    ∀ (ns : List (Option String)) (es : List ValueEdge) (i : Nat) (st : GvState),
    (printFields g st src ns es i).2.out =
      st.out ++ printFieldsLines g st.indentLevel ns es i ∧
    (printFields g st src ns es i).2.indentLevel = st.indentLevel ∧
    (printFields g st src ns es i).2.np = st.np ∧
    (printFields g st src ns es i).2.includeTemporaries = st.includeTemporaries ∧
    (printFields g st src ns es i).1 = i + min ns.length es.length := by
  intro ns
  induction ns with
  | nil => intro es i st; cases es <;> simp [printFields, printFieldsLines]
  | cons n ns ih =>
      intro es i st
      cases es with
      | nil => simp [printFields, printFieldsLines]
      | cons e es =>
          have hf := printField_out g st e n src i
          have hr := ih es (i + 1) (printField g st e n src i)
          simp only [printFields, printFieldsLines]
          refine ⟨?_, ?_, ?_, ?_, ?_⟩
          · rw [hr.1, hf.1, hf.2.1, List.append_assoc]
          · rw [hr.2.1, hf.2.1]
          · rw [hr.2.2.1, hf.2.2.1]
          · rw [hr.2.2.2.1, hf.2.2.2]
          · rw [hr.2.2.2.2]
            simp only [List.length_cons]
            omega

theorem printFields_inert (g : HeapGraph) (src : String) :
    ∀ (ns : List (Option String)) (es : List ValueEdge) (i : Nat) (st : GvState),
    (∀ e ∈ es, ∃ d, e.target = ValueEdgeTarget.data d) →
    (printFields g st src ns es i).2.nodeSet = st.nodeSet ∧
    (printFields g st src ns es i).2.nodeQueue = st.nodeQueue ∧
    (printFields g st src ns es i).2.valueEdgeList = st.valueEdgeList := by
  intro ns
  induction ns with
  | nil => intro es i st _; cases es <;> simp [printFields]
  | cons n ns ih =>
      intro es i st hall
      cases es with
      | nil => simp [printFields]
      | cons e es =>
          have hf := printField_inert g st e n src i (Or.inr (hall e (by simp)))
          have hr := ih es (i + 1) (printField g st e n src i)
            (fun x hx => hall x (by simp [hx]))
          simp only [printFields]
          exact ⟨by rw [hr.1, hf.1], by rw [hr.2.1, hf.2.1], by rw [hr.2.2, hf.2.2]⟩

theorem printStackFrame_out (g : HeapGraph) (st : GvState) (sn : String)
    (fr : StackFrameNodeData) (fi : Nat) :
    (printStackFrame g st sn fr fi).2.out =
      st.out ++ printStackFrameLines g st.includeTemporaries st.indentLevel fr fi ∧
    (printStackFrame g st sn fr fi).2.indentLevel = st.indentLevel ∧
    (printStackFrame g st sn fr fi).2.np = st.np ∧
    (printStackFrame g st sn fr fi).2.includeTemporaries = st.includeTemporaries ∧
    (printStackFrame g st sn fr fi).1 = frameNextIndex fr fi := by
  have hlen : (fr.vars.map (variableName st.includeTemporaries)).length =
      (fr.vars.map (fun v => v.value)).length := by simp
  have hps := printFields_out g sn (fr.vars.map (variableName st.includeTemporaries))
    (fr.vars.map (fun v => v.value)) fi (st.println
      ("<tr><td border=\"1\">" ++ fr.functionName ++ "</td></tr>"))
  have hidx : (printFields g (st.println
      ("<tr><td border=\"1\">" ++ fr.functionName ++ "</td></tr>")) sn
      (fr.vars.map (variableName st.includeTemporaries))
      (fr.vars.map (fun v => v.value)) fi).1 = fi + fr.vars.length := by
    rw [hps.2.2.2.2]; simp
  rcases hq : printFields g (st.println
      ("<tr><td border=\"1\">" ++ fr.functionName ++ "</td></tr>")) sn
      (fr.vars.map (variableName st.includeTemporaries))
      (fr.vars.map (fun v => v.value)) fi with ⟨fi2, st2⟩
  rw [hq] at hps hidx
  simp only [GvState.println] at hps
  cases hif : fr.inFlightValue with
  | none =>
      simp only [printStackFrame, hq, hif, printStackFrameLines, frameNextIndex]
      refine ⟨?_, hps.2.1, hps.2.2.1, hps.2.2.2.1, ?_⟩
      · rw [hps.1]
        simp [hif, List.append_assoc, String.append_assoc]
      · simp at hidx
        simp [hidx, hif]
  | some e =>
      have hfo := printField_out g st2 e (some "(in-flight)") "stack" fi2
      simp only [printStackFrame, hq, hif, printStackFrameLines, frameNextIndex]
      simp only [] at hidx
      refine ⟨?_, ?_, ?_, ?_, ?_⟩
      · rw [hfo.1, hps.1, hps.2.1, hidx]
        simp [hif, List.append_assoc, String.append_assoc]
      · rw [hfo.2.1, hps.2.1]
      · rw [hfo.2.2.1, hps.2.2.1]
      · rw [hfo.2.2.2, hps.2.2.2.1]
      · simp [hidx, hif]

theorem printStackFrame_inert (g : HeapGraph) (st : GvState) (sn : String)
    (fr : StackFrameNodeData) (fi : Nat)
    (hv : ∀ v ∈ fr.vars, ∃ d, v.value.target = ValueEdgeTarget.data d)
    (hi : ∀ e, fr.inFlightValue = some e → ∃ d, e.target = ValueEdgeTarget.data d) :
    (printStackFrame g st sn fr fi).2.nodeSet = st.nodeSet ∧
    (printStackFrame g st sn fr fi).2.nodeQueue = st.nodeQueue ∧
    (printStackFrame g st sn fr fi).2.valueEdgeList = st.valueEdgeList := by
  have hps := printFields_inert g sn (fr.vars.map (variableName st.includeTemporaries))
    (fr.vars.map (fun v => v.value)) fi (st.println
      ("<tr><td border=\"1\">" ++ fr.functionName ++ "</td></tr>"))
    (by intro e he; simp at he; rcases he with ⟨v, hv2, rfl⟩; exact hv v hv2)
  rcases hq : printFields g (st.println
      ("<tr><td border=\"1\">" ++ fr.functionName ++ "</td></tr>")) sn
      (fr.vars.map (variableName st.includeTemporaries))
      (fr.vars.map (fun v => v.value)) fi with ⟨fi2, st2⟩
  rw [hq] at hps
  simp only [GvState.println] at hps
  cases hif : fr.inFlightValue with
  | none => simp only [printStackFrame, hq, hif]; exact hps
  | some e =>
      have hfo := printField_inert g st2 e (some "(in-flight)") "stack" fi2
        (Or.inr (hi e hif))
      simp only [printStackFrame, hq, hif]
      exact ⟨by rw [hfo.1, hps.1], by rw [hfo.2.1, hps.2.1], by rw [hfo.2.2, hps.2.2]⟩

theorem printStackFrames_out (g : HeapGraph) (sn : String) :
    ∀ (frs : List StackFrameNodeData) (fi : Nat) (st : GvState),
    (printStackFrames g st sn frs fi).2.out =
      st.out ++ printStackFramesLines g st.includeTemporaries st.indentLevel frs fi ∧
    (printStackFrames g st sn frs fi).2.indentLevel = st.indentLevel ∧
    (printStackFrames g st sn frs fi).2.np = st.np ∧
    (printStackFrames g st sn frs fi).2.includeTemporaries = st.includeTemporaries := by
  intro frs
  induction frs with
  | nil => intro fi st; simp [printStackFrames, printStackFramesLines]
  | cons fr rest ih =>
      intro fi st
      have hf := printStackFrame_out g st sn fr fi
      rcases hq : printStackFrame g st sn fr fi with ⟨fi1, st1⟩
      rw [hq] at hf
      dsimp only at hf
      have hr := ih fi1 st1
      simp only [printStackFrames, hq, printStackFramesLines]
      refine ⟨?_, ?_, ?_, ?_⟩
      · rw [hr.1, hf.1, hf.2.1, hf.2.2.2.1, hf.2.2.2.2, List.append_assoc]
      · rw [hr.2.1, hf.2.1]
      · rw [hr.2.2.1, hf.2.2.1]
      · rw [hr.2.2.2, hf.2.2.2.1]

theorem printStackFrames_inert (g : HeapGraph) (sn : String) :
    ∀ (frs : List StackFrameNodeData) (fi : Nat) (st : GvState),
    (∀ fr ∈ frs, (∀ v ∈ fr.vars, ∃ d, v.value.target = ValueEdgeTarget.data d) ∧
      (∀ e, fr.inFlightValue = some e → ∃ d, e.target = ValueEdgeTarget.data d)) →
    (printStackFrames g st sn frs fi).2.nodeSet = st.nodeSet ∧
    (printStackFrames g st sn frs fi).2.nodeQueue = st.nodeQueue ∧
    (printStackFrames g st sn frs fi).2.valueEdgeList = st.valueEdgeList := by
  intro frs
  induction frs with
  | nil => intro fi st _; simp [printStackFrames]
  | cons fr rest ih =>
      intro fi st hall
      have hf := printStackFrame_inert g st sn fr fi (hall fr (by simp)).1 (hall fr (by simp)).2
      rcases hq : printStackFrame g st sn fr fi with ⟨fi1, st1⟩
      rw [hq] at hf
      have hr := ih fi1 st1 (fun x hx => hall x (by simp [hx]))
      simp only [printStackFrames, hq]
      exact ⟨by rw [hr.1, hf.1], by rw [hr.2.1, hf.2.1], by rw [hr.2.2, hf.2.2]⟩

theorem printStack_out (g : HeapGraph) (st : GvState) :
    (printStack g st).out =
      st.out ++ stackClusterLines g st.includeTemporaries st.np st.indentLevel ∧
    (printStack g st).indentLevel = st.indentLevel ∧
    (printStack g st).np = st.np ∧
    (printStack g st).includeTemporaries = st.includeTemporaries := by
  unfold printStack
  simp only [GvState.indent, GvState.println, GvState.undent]
  have hfs := printStackFrames_out g (st.np ++ "stack") g.stack 0
    { st with indentLevel := st.indentLevel + 2 + 2 + 2,
              out := st.out ++
                [pad st.indentLevel ++ ("subgraph cluster_" ++ st.np ++ "stack \x7b")] ++
                [pad (st.indentLevel + 2) ++ "label=<<b>stack</b>>"] ++
                [pad (st.indentLevel + 2) ++ "rank=\"source\";"] ++
                [pad (st.indentLevel + 2) ++ (st.np ++ "stack" ++ "[")] ++
                [pad (st.indentLevel + 2 + 2) ++ "shape=\"none\";"] ++
                [pad (st.indentLevel + 2 + 2) ++ "label=<"] ++
                [pad (st.indentLevel + 2 + 2 + 2) ++ "<table border=\"0\">"] }
  rcases hq : printStackFrames g
      { st with indentLevel := st.indentLevel + 2 + 2 + 2,
                out := st.out ++
                  [pad st.indentLevel ++ ("subgraph cluster_" ++ st.np ++ "stack \x7b")] ++
                  [pad (st.indentLevel + 2) ++ "label=<<b>stack</b>>"] ++
                  [pad (st.indentLevel + 2) ++ "rank=\"source\";"] ++
                  [pad (st.indentLevel + 2) ++ (st.np ++ "stack" ++ "[")] ++
                  [pad (st.indentLevel + 2 + 2) ++ "shape=\"none\";"] ++
                  [pad (st.indentLevel + 2 + 2) ++ "label=<"] ++
                  [pad (st.indentLevel + 2 + 2 + 2) ++ "<table border=\"0\">"] }
      (st.np ++ "stack") g.stack 0 with ⟨fiEnd, stEnd⟩
  rw [hq] at hfs
  dsimp only at hfs
  simp only [List.append_assoc, List.cons_append, List.nil_append] at hfs ⊢
  refine ⟨?_, ?_, ?_, ?_⟩
  · rw [hfs.1, hfs.2.1]
    simp [stackClusterLines, List.append_assoc, String.append_assoc, Nat.add_sub_cancel]
  · rw [hfs.2.1]; omega
  · rw [hfs.2.2.1]
  · rw [hfs.2.2.2]

theorem printStack_inert (g : HeapGraph) (st : GvState) (hg : allDataGraph g = true) :
    (printStack g st).nodeSet = st.nodeSet ∧
    (printStack g st).nodeQueue = st.nodeQueue ∧
    (printStack g st).valueEdgeList = st.valueEdgeList := by
  have hall : ∀ fr ∈ g.stack,
      (∀ v ∈ fr.vars, ∃ d, v.value.target = ValueEdgeTarget.data d) ∧
      (∀ e, fr.inFlightValue = some e → ∃ d, e.target = ValueEdgeTarget.data d) := by
    intro fr hfr
    have h1 := (List.all_eq_true.mp hg) fr hfr
    rw [Bool.and_eq_true] at h1
    constructor
    · intro v hv
      have h2 := (List.all_eq_true.mp h1.1) v hv
      rcases ht : v.value.target with o | c | f | d <;>
        first | exact ⟨_, ht⟩ | exact ⟨_, rfl⟩ | simp [ht] at h2
    · intro e he
      have h2 := h1.2
      rw [he] at h2
      rcases ht : e.target with o | c | f | d <;>
        first | exact ⟨_, ht⟩ | exact ⟨_, rfl⟩ | simp [ht] at h2
  unfold printStack
  simp only [GvState.indent, GvState.println, GvState.undent]
  have hfs := printStackFrames_inert g (st.np ++ "stack") g.stack 0
    { st with indentLevel := st.indentLevel + 2 + 2 + 2,
              out := st.out ++
                [pad st.indentLevel ++ ("subgraph cluster_" ++ st.np ++ "stack \x7b")] ++
                [pad (st.indentLevel + 2) ++ "label=<<b>stack</b>>"] ++
                [pad (st.indentLevel + 2) ++ "rank=\"source\";"] ++
                [pad (st.indentLevel + 2) ++ (st.np ++ "stack" ++ "[")] ++
                [pad (st.indentLevel + 2 + 2) ++ "shape=\"none\";"] ++
                [pad (st.indentLevel + 2 + 2) ++ "label=<"] ++
                [pad (st.indentLevel + 2 + 2 + 2) ++ "<table border=\"0\">"] } hall
  rcases hq : printStackFrames g
      { st with indentLevel := st.indentLevel + 2 + 2 + 2,
                out := st.out ++
                  [pad st.indentLevel ++ ("subgraph cluster_" ++ st.np ++ "stack \x7b")] ++
                  [pad (st.indentLevel + 2) ++ "label=<<b>stack</b>>"] ++
                  [pad (st.indentLevel + 2) ++ "rank=\"source\";"] ++
                  [pad (st.indentLevel + 2) ++ (st.np ++ "stack" ++ "[")] ++
                  [pad (st.indentLevel + 2 + 2) ++ "shape=\"none\";"] ++
                  [pad (st.indentLevel + 2 + 2) ++ "label=<"] ++
                  [pad (st.indentLevel + 2 + 2 + 2) ++ "<table border=\"0\">"] }
      (st.np ++ "stack") g.stack 0 with ⟨fiEnd, stEnd⟩
  rw [hq] at hfs
  dsimp only at hfs
  simp only [List.append_assoc, List.cons_append, List.nil_append] at hfs ⊢
  exact hfs

theorem printHeap_emptyQueue (g : HeapGraph) (fuel : Nat) (st : GvState)
    (h : st.nodeQueue = []) : printHeap g fuel st = st := by
  cases fuel with
  | zero => rfl
  | succ n => simp [printHeap, h]

theorem edgeFold_out (g : HeapGraph) :
    ∀ (edges : List GraphvizValueEdge) (st : GvState),
    (edges.foldl (fun acc ge => acc.println (edgeLine g ge)) st).out =
      st.out ++ edges.map (fun ge => pad st.indentLevel ++ edgeLine g ge) ∧
    (edges.foldl (fun acc ge => acc.println (edgeLine g ge)) st).indentLevel =
      st.indentLevel ∧
    (edges.foldl (fun acc ge => acc.println (edgeLine g ge)) st).nodeSet = st.nodeSet ∧
    (edges.foldl (fun acc ge => acc.println (edgeLine g ge)) st).nodeQueue = st.nodeQueue ∧
    (edges.foldl (fun acc ge => acc.println (edgeLine g ge)) st).valueEdgeList =
      st.valueEdgeList ∧
    (edges.foldl (fun acc ge => acc.println (edgeLine g ge)) st).np = st.np ∧
    (edges.foldl (fun acc ge => acc.println (edgeLine g ge)) st).includeTemporaries =
      st.includeTemporaries := by
  intro edges
  induction edges with
  | nil => intro st; simp
  | cons ge rest ih =>
      intro st
      have hr := ih (st.println (edgeLine g ge))
      simp only [List.foldl_cons, List.map_cons]
      refine ⟨?_, ?_, ?_, ?_, ?_, ?_, ?_⟩
      · rw [hr.1]; simp [GvState.println]
      · rw [hr.2.1]; simp [GvState.println]
      · rw [hr.2.2.1]; simp [GvState.println]
      · rw [hr.2.2.2.1]; simp [GvState.println]
      · rw [hr.2.2.2.2.1]; simp [GvState.println]
      · rw [hr.2.2.2.2.2.1]; simp [GvState.println]
      · rw [hr.2.2.2.2.2.2]; simp [GvState.println]

theorem stackAndHeap_allData (g : HeapGraph) (fuel : Nat) (st : GvState)
    (hg : allDataGraph g = true) (hq : st.nodeQueue = []) (he : st.valueEdgeList = []) :
    (stackAndHeap g fuel st).out =
      st.out ++ stackClusterLines g st.includeTemporaries st.np st.indentLevel ∧
    (stackAndHeap g fuel st).indentLevel = st.indentLevel ∧
    (stackAndHeap g fuel st).np = st.np ∧
    (stackAndHeap g fuel st).includeTemporaries = st.includeTemporaries ∧
    (stackAndHeap g fuel st).nodeQueue = [] ∧
    (stackAndHeap g fuel st).valueEdgeList = [] ∧
    (stackAndHeap g fuel st).nodeSet = st.nodeSet := by
  have hout := printStack_out g st
  have hin := printStack_inert g st hg
  have hheap : printHeap g fuel (printStack g st) = printStack g st :=
    printHeap_emptyQueue g fuel (printStack g st) (by rw [hin.2.1, hq])
  unfold stackAndHeap
  dsimp only
  rw [hheap, hin.2.2, he]
  simp only [List.foldl_nil]
  refine ⟨?_, ?_, ?_, ?_, ?_, ?_, ?_⟩ <;>
    simp [hout.1, hout.2.1, hout.2.2.1, hout.2.2.2, hin.1, hin.2.1, hq]

/-! ### The renderer claims -/

/-- C1: the claim says a data label whose HTML-escaped form has exactly
40 characters is rendered in full and only 41-plus labels are elided.
The source truncates whenever the escaped length is at least 40, so the
correct boundary is: escaped labels of at most 39 characters are
rendered in full, and escaped labels of 40 or more characters are
rendered as their first 20 characters, the marker, and their last 20
characters.  This theorem states that corrected boundary. -/
theorem data_str_spec (g1 : HeapGraph) (d1 : Nat) (s1 : String)
    (g2 : HeapGraph) (d2 : Nat) (s2 : String)
    (h1 : g1.datas[d1]? = some { debug := s1 }) (hl1 : (htmlEscape s1).length < 40)
    (h2 : g2.datas[d2]? = some { debug := s2 }) (hl2 : 40 ≤ (htmlEscape s2).length) :
    g1.dataStr d1 = htmlEscape s1 ∧
    g2.dataStr d2 =
      (htmlEscape s2).take 20 ++ "[...]" ++
      (htmlEscape s2).drop ((htmlEscape s2).length - 20) := by
  constructor
  · unfold HeapGraph.dataStr
    rw [h1]
    simp [hl1]
  · unfold HeapGraph.dataStr
    rw [h2]
    simp [Nat.not_lt.mpr hl2]

/-- C1 witness: the corrected boundary evaluated at a 4-character and a
45-character escaped label. -/
theorem data_str_spec_witness :
    shortSnapshot.dataStr 0 = htmlEscape "\"hi\"" ∧
    fortyFiveSnapshot.dataStr 0 =
      (htmlEscape (String.mk (List.replicate 45 'b'))).take 20 ++ "[...]" ++
      (htmlEscape (String.mk (List.replicate 45 'b'))).drop
        ((htmlEscape (String.mk (List.replicate 45 'b'))).length - 20) :=
  data_str_spec shortSnapshot 0 "\"hi\"" fortyFiveSnapshot 0
    (String.mk (List.replicate 45 'b')) rfl (by decide) rfl (by decide)

/-- C1 counterexample: a data label whose escaped form has exactly 40
characters is not rendered in full, contrary to the claim. -/
theorem data_str_forty_counterexample :
    (htmlEscape fortyString).length = 40 ∧
    fortySnapshot.dataStr 0 ≠ htmlEscape fortyString := by
  constructor
  · decide
  · decide

/-- C4: every value edge printed by stack_and_heap is rendered as the
line SRC:PORT -> TGT [label=LABEL, style=STYLE] (source node and target
node debug-quoted), where LABEL is the edge permission's human-readable
label and STYLE is dotted exactly when that permission has a tenant and
solid otherwise; the edge section of the output is exactly the
accumulated edge list mapped through this rendering. -/
theorem value_edge_line_spec :
    (∀ (g : HeapGraph) (fuel : Nat) (st : GvState),
      (stackAndHeap g fuel st).out =
        (printHeap g fuel (printStack g st)).out ++
        (printHeap g fuel (printStack g st)).valueEdgeList.map
          (fun ge => pad (printHeap g fuel (printStack g st)).indentLevel ++ edgeLine g ge)) ∧
    (∀ (g : HeapGraph) (ge : GraphvizValueEdge) (pd : PermissionNodeData),
      g.permissions[ge.permission]? = some pd →
      edgeLine g ge =
        rustDebugQuote ge.source.node ++ ":" ++ toString ge.source.port ++ " -> " ++
        rustDebugQuote ge.target ++ " [label=" ++ rustDebugQuote pd.label ++
        ", style=" ++ rustDebugQuote (if pd.tenant.isSome then "dotted" else "solid") ++
        "];" ∧
      ((if pd.tenant.isSome then "dotted" else "solid") = "dotted" ↔ pd.tenant.isSome) ∧
      ((if pd.tenant.isSome then "dotted" else "solid") = "solid" ↔ pd.tenant = none)) := by
  constructor
  · intro g fuel st
    unfold stackAndHeap
    dsimp only
    have hf := edgeFold_out g ((printHeap g fuel (printStack g st)).valueEdgeList)
      { printHeap g fuel (printStack g st) with valueEdgeList := [] }
    rw [hf.1]
  · intro g ge pd h
    unfold edgeLine
    rw [h]
    cases htn : pd.tenant with
    | none => simp [htn]
    | some t => simp [htn]

/-- C4 witness: the edge-line rendering evaluated on a snapshot with a
tenanted and an untenanted permission. -/
theorem value_edge_line_spec_witness :
    edgeLine twoEdgeSnapshot
        { source := { node := "stack", port := 0 }, target := "node0", permission := 0 } =
      rustDebugQuote "stack" ++ ":" ++ toString (0 : Nat) ++ " -> " ++
      rustDebugQuote "node0" ++ " [label=" ++ rustDebugQuote "my" ++ ", style=" ++
      rustDebugQuote (if (some 1 : Option Nat).isSome then "dotted" else "solid") ++ "];" ∧
    ((if (some 1 : Option Nat).isSome then "dotted" else "solid") = "dotted" ↔
      (some 1 : Option Nat).isSome) ∧
    ((if (some 1 : Option Nat).isSome then "dotted" else "solid") = "solid" ↔
      (some 1 : Option Nat) = none) :=
  value_edge_line_spec.2 twoEdgeSnapshot
    { source := { node := "stack", port := 0 }, target := "node0", permission := 0 }
    { label := "my", tenant := some 1, lessor := none } rfl

/-- C3: the claim says every node identifier emitted by a paired
rendering carries its cluster's before/after prefix, including the
source of the edge for an in-flight value.  The code builds the
prefixed stack node name but passes the bare literal "stack" as the
source for the in-flight row (graphviz.rs line 193), so in both
clusters the in-flight edge's source identifier is the unprefixed
"stack": here the last line of each cluster of the paired rendering of
a snapshot with an in-flight value, computed by the renderer. -/
theorem in_flight_edge_source_unprefixed :
    (afterClusterContents inFlightSnapshot false
        (heapFuel inFlightSnapshot + heapFuel inFlightSnapshot)).getLast? =
      some "    \"stack\":0 -> \"afternode0\" [label=\"my\", style=\"solid\"];" ∧
    (beforeClusterContents inFlightSnapshot inFlightSnapshot false
        (heapFuel inFlightSnapshot + heapFuel inFlightSnapshot)).getLast? =
      some "    \"stack\":0 -> \"beforenode0\" [label=\"my\", style=\"solid\"];" := by
  constructor
  · decide
  · decide

/-- C2: the claim says rendering the pair (S, S) produces before and
after clusters with identical contents modulo the before/after
node-name prefixes.  The writer's node set is shared between the two
clusters and the after cluster is rendered first, so any heap-node
definition is emitted only in the after cluster and the claim fails
(see the counterexample).  What does hold, stated here, is the
restriction to snapshots whose reachable values are all data nodes: the
two cluster bodies are then the same stack-cluster template
instantiated at the prefixes "after" and "before", which is exactly
identity modulo node-name prefixes. -/
theorem graphviz_paired_self_spec (g : HeapGraph) (flag : Bool) (fuel : Nat)
    (h : allDataGraph g = true) :
    afterClusterContents g flag fuel = stackClusterLines g flag "after" 4 ∧
    beforeClusterContents g g flag fuel = stackClusterLines g flag "before" 4 := by
  have h1 := stackAndHeap_allData g fuel (afterClusterEntry flag) h rfl rfl
  constructor
  · unfold afterClusterContents afterClusterExit
    rw [h1.1]
    rw [show (afterClusterEntry flag).includeTemporaries = flag from rfl,
        show (afterClusterEntry flag).np = "after" from rfl,
        show (afterClusterEntry flag).indentLevel = 4 from rfl]
    exact List.drop_left _ _
  · have hq2 : (beforeClusterEntry g flag fuel).nodeQueue = [] := by
      unfold beforeClusterEntry
      simp [GvState.undent, GvState.println, GvState.indent, afterClusterExit,
        h1.2.2.2.2.1]
    have he2 : (beforeClusterEntry g flag fuel).valueEdgeList = [] := by
      unfold beforeClusterEntry
      simp [GvState.undent, GvState.println, GvState.indent, afterClusterExit,
        h1.2.2.2.2.2.1]
    have hnp2 : (beforeClusterEntry g flag fuel).np = "before" := by
      unfold beforeClusterEntry
      simp [GvState.undent, GvState.println, GvState.indent]
    have hind2 : (beforeClusterEntry g flag fuel).indentLevel = 4 := by
      unfold beforeClusterEntry
      simp [GvState.undent, GvState.println, GvState.indent, afterClusterExit, h1.2.1]
      rfl
    have hflag2 : (beforeClusterEntry g flag fuel).includeTemporaries = flag := by
      unfold beforeClusterEntry
      simp [GvState.undent, GvState.println, GvState.indent, afterClusterExit,
        h1.2.2.2]
      rfl
    have h2 := stackAndHeap_allData g fuel (beforeClusterEntry g flag fuel) h hq2 he2
    unfold beforeClusterContents beforeClusterExit
    rw [h2.1, hflag2, hnp2, hind2]
    exact List.drop_left _ _

/-- C2 witness: the restricted identity evaluated on an all-data
snapshot. -/
theorem graphviz_paired_self_spec_witness :
    afterClusterContents dataSnapshot false 2 =
      stackClusterLines dataSnapshot false "after" 4 ∧
    beforeClusterContents dataSnapshot dataSnapshot false 2 =
      stackClusterLines dataSnapshot false "before" 4 :=
  graphviz_paired_self_spec dataSnapshot false 2 (by decide)

/-- C2 counterexample: for a snapshot with one object-valued variable,
the two clusters of the paired self-rendering differ even after erasing
the node-name prefixes: the object's node definition appears only in
the after cluster. -/
theorem graphviz_paired_self_counterexample :
    (beforeClusterContents objectSnapshot objectSnapshot false
        (heapFuel objectSnapshot + heapFuel objectSnapshot)).map (eraseNp "before") ≠
    (afterClusterContents objectSnapshot false
        (heapFuel objectSnapshot + heapFuel objectSnapshot)).map (eraseNp "after") := by
  intro hcontra
  have hl := congrArg List.length hcontra
  simp only [List.length_map] at hl
  exact absurd hl (by decide)

/-! ### Interpreter helper lemmas -/

theorem traverseToObject_ne_nil (m : Machine) :
    ∀ (p : PlaceData) (tr : ObjectTraversal),
    traverseToObject m p = .ok tr → tr.traversed ≠ [] := by
  intro p
  induction p with
  | localVariable v =>
      intro tr h
      unfold traverseToObject at h
      cases hf : m.topFrame with
      | none => rw [hf] at h; cases h
      | some fr =>
          rw [hf] at h
          dsimp only at h
          cases hs : fr.vars[v]? with
          | none => rw [hs] at h; cases h
          | some oval =>
              rw [hs] at h
              cases oval with
              | none => cases h
              | some val =>
                  dsimp only at h
                  cases hp : m.permissions[val.permission]? with
                  | none => rw [hp] at h; cases h
                  | some pd =>
                      rw [hp] at h
                      dsimp only at h
                      by_cases hc : pd.canceled = true
                      · rw [if_pos hc] at h; cases h
                      · rw [if_neg hc] at h; cases h; simp
  | functionRef f => intro tr h; cases h
  | classRef c => intro tr h; cases h
  | intrinsicRef n => intro tr h; cases h
  | dot base field ih =>
      intro tr h
      unfold traverseToObject at h
      obtain ⟨tr0, htr0, h⟩ := exceptBindOk h
      cases ho : m.objects[tr0.object]? with
      | none => rw [ho] at h; cases h
      | some od =>
          rw [ho] at h
          cases od with
          | instanceObj cls fields =>
              dsimp only at h
              cases hcd : m.program.classes[cls]? with
              | none => rw [hcd] at h; cases h
              | some cd =>
                  rw [hcd] at h
                  dsimp only at h
                  cases hfi : cd.fields.findIdx? (fun f => f == field) with
                  | none => rw [hfi] at h; cases h
                  | some i =>
                      rw [hfi] at h
                      dsimp only at h
                      cases hfv : fields[i]? with
                      | none => rw [hfv] at h; cases h
                      | some fv =>
                          rw [hfv] at h
                          dsimp only at h
                          cases hp : m.permissions[fv.permission]? with
                          | none => rw [hp] at h; cases h
                          | some pd =>
                              rw [hp] at h
                              dsimp only at h
                              by_cases hc : pd.canceled = true
                              · rw [if_pos hc] at h; cases h
                              · rw [if_neg hc] at h; cases h; simp
          | tupleObj fields => cases h
          | classObj c => cases h
          | functionObj f => cases h
          | intrinsicObj n => cases h
          | thunk f args => cases h
          | rustThunk n args => cases h
          | boolObj b => cases h
          | uintObj u => cases h
          | stringObj s => cases h
          | unitObj => cases h

theorem clearFrame_vars (m : Machine) :
    ∀ fr2, m.clearFrame.topFrame = some fr2 → ∀ s ∈ fr2.vars, s = none := by
  intro fr2 h s hs
  unfold Machine.clearFrame Machine.topFrame at h
  cases hstk : m.stack with
  | nil => rw [hstk] at h; cases h
  | cons f rest =>
      rw [hstk] at h
      dsimp only [List.head?] at h
      cases h
      obtain ⟨a, ha1, ha2⟩ := List.mem_map.mp hs
      exact ha2.symm

theorem setSlot_stack_length (m : Machine) (v : Nat) (val : Option Value) :
    (m.setSlot v val).stack.length = m.stack.length := by
  unfold Machine.setSlot
  cases m.stack <;> simp

theorem givePlace_stack (m : Machine) (p : PlaceData) (v : Value) (m1 : Machine)
    (h : givePlace m p = .ok (v, m1)) : m1.stack.length = m.stack.length := by
  unfold givePlace at h
  obtain ⟨tr, htr, h⟩ := exceptBindOk h
  cases hl : tr.traversed.getLast? with
  | none => rw [hl] at h; cases h
  | some q =>
      rw [hl] at h
      dsimp only at h
      cases hp : m.permissions[q]? with
      | none => rw [hp] at h; cases h
      | some pd =>
          rw [hp] at h
          dsimp only at h
          cases hk : pd.kind with
          | my =>
              rw [hk] at h
              dsimp only at h
              cases h
              split
              · apply setSlot_stack_length
              · rfl
          | our => rw [hk] at h; cases h; rfl
          | leased => rw [hk] at h; cases h
          | shared => rw [hk] at h; cases h

/-! ### The stepper claims -/

/-- C9: stepping a StartAtomic(b) or an EndAtomic(b) terminator
produces exactly the same machine state and ControlFlow as stepping a
Goto(b) terminator: the three share one arm of step_terminator. -/
theorem atomic_goto_spec (m : Machine) (pc : ProgramCounter) (b : Nat) :
    stepTerminator m pc (.startAtomic b) = stepTerminator m pc (.goto b) ∧
    stepTerminator m pc (.endAtomic b) = stepTerminator m pc (.goto b) :=
  ⟨rfl, rfl⟩

/-- C10: stepping a BreakpointEnd statement never faults on account of
the in-flight place: the machine is unchanged and the kernel event
carries peek_place of the in-flight place, which discards every
traversal error (yielding no in-flight value) and, when traversal
succeeds, pairs the leaf object with the last traversed permission,
performing no revocation; the unwrap of the last traversed permission
cannot panic because a successful traversal is never empty. -/
theorem breakpoint_end_peek_spec (m : Machine) (filename : String) (index : Nat)
    (e : Nat) (p : Option PlaceData)
    (m2 : Machine) (pl2 : PlaceData) (tr2 : ObjectTraversal)
    (m3 : Machine) (pl3 : PlaceData) (err3 : Fault)
    (h2 : traverseToObject m2 pl2 = .ok tr2)
    (h3 : traverseToObject m3 pl3 = .error err3) :
    stepStatement m (.breakpointEnd filename index e p) =
      .ok (m, [.breakpointEnd filename index (p.bind (peekPlace m))]) ∧
    (∃ q, tr2.traversed.getLast? = some q ∧
      peekPlace m2 pl2 = some { object := tr2.object, permission := q }) ∧
    peekPlace m3 pl3 = none := by
  refine ⟨rfl, ?_, ?_⟩
  · have hne := traverseToObject_ne_nil m2 pl2 tr2 h2
    cases hq : tr2.traversed.getLast? with
    | none => exact absurd (List.getLast?_eq_none_iff.mp hq) hne
    | some q =>
        refine ⟨q, rfl, ?_⟩
        unfold peekPlace
        rw [h2]
        dsimp only
        rw [hq]
  · unfold peekPlace
    rw [h3]

/-- C10 witness: the peek semantics evaluated on the Point machine, at
a place that traverses successfully and at one whose traversal errors. -/
theorem breakpoint_end_peek_spec_witness :
    stepStatement pointMachine
        (.breakpointEnd "f" 0 0 (some (.dot (.localVariable 1) "y"))) =
      .ok (pointMachine, [.breakpointEnd "f" 0
        (Option.bind (some (.dot (.localVariable 1) "y")) (peekPlace pointMachine))]) ∧
    peekPlace pointMachine (.localVariable 5) = none := by
  have h := breakpoint_end_peek_spec pointMachine "f" 0 0
    (some (.dot (.localVariable 1) "y"))
    pointMachine (.dot (.localVariable 1) "y") { traversed := [3, 1], object := 1 }
    pointMachine (.localVariable 5) (.machineBug "no such local variable") rfl rfl
  exact ⟨h.1, h.2.2⟩

/-- C8: when stepping an assignment statement the right-hand expression
is fully evaluated first and only then is the target traversed and
written, so revocation of the target's permissions happens during the
assignment, not during evaluation.  The first half decomposes every
successful assignment step into evaluation followed by assignment; the
second half runs the p.x = q.y scenario from the source comment: the
read of q.y succeeds and observes 44 while q's lease is still live, and
only the assignment cancels it. -/
theorem assign_statement_order_spec :
    (∀ (m : Machine) (place : PlaceData) (e : ExprData) (m2 : Machine)
        (ev : List KernelEvent),
      stepStatement m (.assign place e) = .ok (m2, ev) →
      ∃ v mi, evalExpr m e = .ok (v, mi) ∧ assignPlace mi place v = .ok m2 ∧ ev = []) ∧
    (stepStatement pointMachine pointAssignStatement = .ok (pointMachineAfter, []) ∧
     evalExpr pointMachine (.give (.dot (.localVariable 1) "y")) =
       .ok ({ object := 1, permission := 1 }, pointMachine) ∧
     pointMachine.objects[1]? = some (.uintObj 44) ∧
     (pointMachine.permissions[3]?).map PermissionData.canceled = some false ∧
     (pointMachineAfter.permissions[3]?).map PermissionData.canceled = some true ∧
     (match pointMachineAfter.objects[2]? with
      | some (ObjectData.instanceObj _c fields) => fields[0]?
      | _ => none) = some { object := 1, permission := 1 }) := by
  constructor
  · intro m place e m2 ev h
    unfold stepStatement at h
    obtain ⟨⟨v, mi⟩, hev, h⟩ := exceptBindOk h
    obtain ⟨mf, hass, h⟩ := exceptBindOk h
    cases h
    exact ⟨v, mi, hev, hass, rfl⟩
  · refine ⟨by decide, by decide, by decide, by decide, by decide, by decide⟩

/-- C8 witness: the evaluation-before-assignment decomposition applied
to the concrete p.x = q.y step. -/
theorem assign_statement_order_spec_witness :
    ∃ v mi, evalExpr pointMachine (.give (.dot (.localVariable 1) "y")) = .ok (v, mi) ∧
      assignPlace mi (.dot (.localVariable 0) "x") v = .ok pointMachineAfter ∧
      ([] : List KernelEvent) = [] :=
  assign_statement_order_spec.1 pointMachine (.dot (.localVariable 0) "x")
    (.give (.dot (.localVariable 1) "y")) pointMachineAfter [] (by decide)

/-- C7: under the precondition that the top frame's PC points at a
terminator Assign(target, Call-or-Await expression, next) — the
TerminatorExpr type has exactly those two forms — resume_with stores
the value into that target and moves the PC to the start of next; at
any other control point resume_with reports an interpreter panic
instead of mutating state. -/
theorem resume_with_spec (m : Machine) (v : Value) (fr : Frame) (bd : BirData)
    (bb : BasicBlockData) (target : PlaceData) (texpr : TerminatorExpr) (next : Nat)
    (m2 : Machine) (v2 : Value)
    (hfr : m.topFrame = some fr) (hbd : m.program.birs[fr.pc.bir]? = some bd)
    (hbb : bd.basicBlocks[fr.pc.basicBlock]? = some bb)
    (hat : fr.pc.statement = bb.statements.length)
    (hterm : bb.terminator = .assign target texpr next)
    (hnot : atAssignTerminatorB m2 = false) :
    resumeWith m v =
      (assignPlace m target v).map (fun mm => mm.setPc (fr.pc.moveToBlock next)) ∧
    ∃ msg, resumeWith m2 v2 = .error (.machineBug msg) := by
  constructor
  · unfold resumeWith
    rw [hfr]
    dsimp only
    rw [hbd]
    dsimp only
    rw [hbb]
    dsimp only
    rw [if_pos hat, hterm]
    dsimp only
    cases hass : assignPlace m target v with
    | error e => simp [hass, Except.map, Bind.bind, Except.bind]
    | ok mm => simp [hass, Except.map, Bind.bind, Except.bind]
  · unfold resumeWith
    unfold atAssignTerminatorB at hnot
    cases hf2 : m2.topFrame with
    | none => exact ⟨"no calling frame", rfl⟩
    | some fr2 =>
        rw [hf2] at hnot
        dsimp only at hnot ⊢
        cases hbd2 : m2.program.birs[fr2.pc.bir]? with
        | none => exact ⟨"dangling bir", rfl⟩
        | some bd2 =>
            rw [hbd2] at hnot
            dsimp only at hnot ⊢
            cases hbb2 : bd2.basicBlocks[fr2.pc.basicBlock]? with
            | none => exact ⟨"dangling basic block", rfl⟩
            | some bb2 =>
                rw [hbb2] at hnot
                dsimp only at hnot ⊢
                by_cases hat2 : fr2.pc.statement = bb2.statements.length
                · rw [if_pos hat2] at hnot
                  rw [if_pos hat2]
                  cases hterm2 : bb2.terminator with
                  | assign t2 e2 n2 =>
                      rw [hterm2] at hnot
                      exact absurd hnot (by simp)
                  | goto b => exact ⟨"calling frame should be at an assign terminator", rfl⟩
                  | ifTerm p a b =>
                      exact ⟨"calling frame should be at an assign terminator", rfl⟩
                  | startAtomic b =>
                      exact ⟨"calling frame should be at an assign terminator", rfl⟩
                  | endAtomic b =>
                      exact ⟨"calling frame should be at an assign terminator", rfl⟩
                  | returnTerm p =>
                      exact ⟨"calling frame should be at an assign terminator", rfl⟩
                  | error => exact ⟨"calling frame should be at an assign terminator", rfl⟩
                  | panicTerm =>
                      exact ⟨"calling frame should be at an assign terminator", rfl⟩
                · rw [if_neg hat2]
                  exact ⟨"calling frame should be at a terminator", rfl⟩

theorem clearFrame_stack_length (m : Machine) :
    m.clearFrame.stack.length = m.stack.length := by
  unfold Machine.clearFrame
  cases m.stack <;> simp

/-- C6: executing a Return(place) terminator give-evaluates the place,
clears the current frame (every slot of the cleared frame is
uninitialized, so the collector attributes revocations to the callee),
runs the collector, pops the frame, and then either resumes the
uncovered caller through resume_with and yields Next, or, when no frame
remains, yields Done carrying the return value; the composition below
fixes that order. -/
theorem return_terminator_spec (m : Machine) (fr : Frame) (bd : BirData)
    (bb : BasicBlockData) (place : PlaceData) (cf : ControlFlow) (m1 : Machine)
    (ev : List KernelEvent)
    (hfr : m.topFrame = some fr) (hbd : m.program.birs[fr.pc.bir]? = some bd)
    (hbb : bd.basicBlocks[fr.pc.basicBlock]? = some bb)
    (hat : fr.pc.statement = bb.statements.length)
    (hterm : bb.terminator = .returnTerm place)
    (h : step m = .ok (cf, m1, ev)) :
    ∃ v mg, givePlace m place = .ok (v, mg) ∧
      (∀ fr2, (mg.clearFrame).topFrame = some fr2 → ∀ s ∈ fr2.vars, s = none) ∧
      ((((mg.clearFrame.gc [v]).popFrame).stack = [] →
          cf = .done fr.pc v ∧ m1 = ((mg.clearFrame.gc [v]).popFrame).gc [v]) ∧
       (((mg.clearFrame.gc [v]).popFrame).stack ≠ [] →
          ∃ m4, resumeWith ((mg.clearFrame.gc [v]).popFrame) v = .ok m4 ∧
            cf = .next ∧ m1 = m4.gc [])) := by
  unfold step at h
  rw [hfr] at h
  dsimp only at h
  rw [hbd] at h
  dsimp only at h
  rw [hbb] at h
  dsimp only at h
  have hst : bb.statements[fr.pc.statement]? = none := by rw [hat]; simp
  rw [hst] at h
  dsimp only at h
  rw [if_pos hat, hterm] at h
  obtain ⟨⟨cf2, m2⟩, hterm2, h⟩ := exceptBindOk h
  cases h
  unfold stepTerminator at hterm2
  obtain ⟨⟨rv, mg⟩, hgive, hterm2⟩ := exceptBindOk hterm2
  dsimp only at hterm2
  refine ⟨rv, mg, hgive, clearFrame_vars mg, ?_, ?_⟩
  · intro hempty
    rw [if_pos (List.isEmpty_iff.mpr hempty)] at hterm2
    cases hterm2
    exact ⟨rfl, rfl⟩
  · intro hne
    have hbe : (((mg.clearFrame.gc [rv]).popFrame).stack.isEmpty = true) = False := by
      simp [List.isEmpty_iff, hne]
    rw [if_neg (by rw [hbe]; exact not_false)] at hterm2
    obtain ⟨m4, hres, hterm2⟩ := exceptBindOk hterm2
    cases hterm2
    exact ⟨_, hres, rfl, rfl⟩

/-- C6 witness: the Return composition evaluated on a machine whose
single frame returns local 0: the pop empties the stack and the step
reports Done. -/
theorem return_terminator_spec_witness :
    ∃ v mg, givePlace returnMachine (.localVariable 0) = .ok (v, mg) ∧
      ((((mg.clearFrame.gc [v]).popFrame).stack = [] →
          ControlFlow.done { bir := 0, basicBlock := 0, statement := 0 }
              { object := 0, permission := 0 } =
            .done { bir := 0, basicBlock := 0, statement := 0 } v)) := by
  obtain ⟨v, mg, h1, _h2, h3, _h4⟩ := return_terminator_spec returnMachine
    { pc := { bir := 0, basicBlock := 0, statement := 0 },
      vars := [some { object := 0, permission := 0 }] }
    returnBir
    { statements := [], terminator := .returnTerm (.localVariable 0) }
    (.localVariable 0)
    (.done { bir := 0, basicBlock := 0, statement := 0 } { object := 0, permission := 0 })
    returnMachineAfter [] rfl rfl rfl rfl rfl (by decide)
  exact ⟨v, mg, h1, fun hs => (h3 hs).1⟩

/-- C5: a non-faulting step returns Await only when the machine is at
an Await terminator whose thunk resolves to a native (Rust) thunk,
returns Done only when it is at a Return terminator and popping the
current frame empties the stack, and returns Next in every other
case. -/
theorem step_control_flow_spec (m : Machine) (cf : ControlFlow) (m1 : Machine)
    (ev : List KernelEvent) (h : step m = .ok (cf, m1, ev)) :
    (∀ t, cf = .await t → atNativeAwait m) ∧
    (∀ pc v, cf = .done pc v →
      (∃ place, atTerminator m (.returnTerm place)) ∧ m.stack.length = 1 ∧
      m1.stack = []) ∧
    (¬ atNativeAwait m → ¬ atFinalReturn m → cf = .next) := by
  unfold step at h
  cases hf : m.topFrame with
  | none => rw [hf] at h; cases h
  | some fr =>
  rw [hf] at h
  dsimp only at h
  cases hbd : m.program.birs[fr.pc.bir]? with
  | none => rw [hbd] at h; cases h
  | some bd =>
  rw [hbd] at h
  dsimp only at h
  cases hbb : bd.basicBlocks[fr.pc.basicBlock]? with
  | none => rw [hbb] at h; cases h
  | some bb =>
  rw [hbb] at h
  dsimp only at h
  cases hst : bb.statements[fr.pc.statement]? with
  | some stm =>
      rw [hst] at h
      dsimp only at h
      obtain ⟨⟨m2, ev2⟩, hss, h⟩ := exceptBindOk h
      cases h
      exact ⟨fun t ht => ControlFlow.noConfusion ht,
             fun pc v hd => ControlFlow.noConfusion hd,
             fun _ _ => rfl⟩
  | none =>
      rw [hst] at h
      dsimp only at h
      by_cases hlen : fr.pc.statement = bb.statements.length
      case neg => rw [if_neg hlen] at h; cases h
      rw [if_pos hlen] at h
      obtain ⟨⟨cf2, m2⟩, hterm2, h⟩ := exceptBindOk h
      cases h
      have hstk1 : 1 ≤ m.stack.length := by
        unfold Machine.topFrame at hf
        cases hms : m.stack with
        | nil => rw [hms] at hf; cases hf
        | cons a b => simp
      cases hter : bb.terminator with
      | goto b =>
          rw [hter] at hterm2
          unfold stepTerminator at hterm2
          cases hterm2
          exact ⟨fun t ht => ControlFlow.noConfusion ht,
                 fun pc v hd => ControlFlow.noConfusion hd, fun _ _ => rfl⟩
      | startAtomic b =>
          rw [hter] at hterm2
          unfold stepTerminator at hterm2
          cases hterm2
          exact ⟨fun t ht => ControlFlow.noConfusion ht,
                 fun pc v hd => ControlFlow.noConfusion hd, fun _ _ => rfl⟩
      | endAtomic b =>
          rw [hter] at hterm2
          unfold stepTerminator at hterm2
          cases hterm2
          exact ⟨fun t ht => ControlFlow.noConfusion ht,
                 fun pc v hd => ControlFlow.noConfusion hd, fun _ _ => rfl⟩
      | ifTerm place bt bf =>
          rw [hter] at hterm2
          unfold stepTerminator at hterm2
          obtain ⟨b, hb, hterm2⟩ := exceptBindOk hterm2
          cases b with
          | true =>
              rw [if_pos rfl] at hterm2
              cases hterm2
              exact ⟨fun t ht => ControlFlow.noConfusion ht,
                     fun pc v hd => ControlFlow.noConfusion hd, fun _ _ => rfl⟩
          | false =>
              rw [if_neg (by simp)] at hterm2
              cases hterm2
              exact ⟨fun t ht => ControlFlow.noConfusion ht,
                     fun pc v hd => ControlFlow.noConfusion hd, fun _ _ => rfl⟩
      | returnTerm place =>
          rw [hter] at hterm2
          unfold stepTerminator at hterm2
          obtain ⟨⟨rv, mg⟩, hgive, hterm2⟩ := exceptBindOk hterm2
          dsimp only at hterm2
          have hglen := givePlace_stack m place rv mg hgive
          by_cases hbe : ((mg.clearFrame.gc [rv]).popFrame).stack.isEmpty = true
          · rw [if_pos hbe] at hterm2
            cases hterm2
            have hempty : ((mg.clearFrame.gc [rv]).popFrame).stack = [] :=
              List.isEmpty_iff.mp hbe
            have hlen1 : m.stack.length = 1 := by
              have hp : ((mg.clearFrame.gc [rv]).popFrame).stack.length =
                  mg.clearFrame.stack.length - 1 := by
                unfold Machine.popFrame Machine.gc
                simp [List.length_tail]
              have hpl : ((mg.clearFrame.gc [rv]).popFrame).stack.length = 0 := by
                rw [hempty]; rfl
              have hcl := clearFrame_stack_length mg
              omega
            refine ⟨fun t ht => ControlFlow.noConfusion ht, ?_, ?_⟩
            · intro pc v hd
              cases hd
              exact ⟨⟨place, fr, bd, bb, hf, hbd, hbb, hlen, hter⟩, hlen1, hempty⟩
            · intro _ hF
              exact absurd ⟨place, ⟨fr, bd, bb, hf, hbd, hbb, hlen, hter⟩, hlen1⟩ hF
          · rw [if_neg hbe] at hterm2
            obtain ⟨m4, hres, hterm2⟩ := exceptBindOk hterm2
            cases hterm2
            exact ⟨fun t ht => ControlFlow.noConfusion ht,
                   fun pc v hd => ControlFlow.noConfusion hd, fun _ _ => rfl⟩
      | assign dest texpr nb =>
          cases texpr with
          | call f args labels =>
              rw [hter] at hterm2
              unfold stepTerminator at hterm2
              obtain ⟨⟨res, m3⟩, hcall, hterm2⟩ := exceptBindOk hterm2
              dsimp only at hterm2
              cases res with
              | returned rv =>
                  obtain ⟨m4, hass, hterm2⟩ := exceptBindOk hterm2
                  cases hterm2
                  exact ⟨fun t ht => ControlFlow.noConfusion ht,
                         fun pc v hd => ControlFlow.noConfusion hd, fun _ _ => rfl⟩
              | pushedNewFrame =>
                  cases hterm2
                  exact ⟨fun t ht => ControlFlow.noConfusion ht,
                         fun pc v hd => ControlFlow.noConfusion hd, fun _ _ => rfl⟩
          | await tp =>
              rw [hter] at hterm2
              unfold stepTerminator at hterm2
              obtain ⟨⟨res, m3⟩, hawait, hterm2⟩ := exceptBindOk hterm2
              dsimp only at hterm2
              cases res with
              | pushedNewFrame =>
                  cases hterm2
                  exact ⟨fun t ht => ControlFlow.noConfusion ht,
                         fun pc v hd => ControlFlow.noConfusion hd, fun _ _ => rfl⟩
              | rustAwait t =>
                  cases hterm2
                  have hN : atNativeAwait m :=
                    ⟨dest, tp, nb, t, _, ⟨fr, bd, bb, hf, hbd, hbb, hlen, hter⟩, hawait⟩
                  exact ⟨fun t2 ht2 => hN,
                         fun pc v hd => ControlFlow.noConfusion hd,
                         fun hnn _ => absurd hN hnn⟩
      | error =>
          rw [hter] at hterm2
          unfold stepTerminator at hterm2
          cases hterm2
      | panicTerm =>
          rw [hter] at hterm2
          unfold stepTerminator at hterm2
          cases hterm2

/-- C5 witness: a machine at an Await terminator over a native thunk:
the step reports Await and the machine indeed satisfies the at-native-
await characterization. -/
theorem step_control_flow_spec_witness : atNativeAwait awaitMachine :=
  (step_control_flow_spec awaitMachine
    (.await { name := "print", arguments := [] }) awaitMachineAfter [] (by decide)).1
    { name := "print", arguments := [] } rfl

/-- C7 witness: the positive half at the machine awaiting at an Assign
terminator, the negative half at the machine sitting at a Return
terminator. -/
theorem resume_with_spec_witness :
    resumeWith awaitMachine { object := 0, permission := 0 } =
      (assignPlace awaitMachine (.localVariable 0) { object := 0, permission := 0 }).map
        (fun mm => mm.setPc (ProgramCounter.moveToBlock
          { bir := 0, basicBlock := 0, statement := 0 } 0)) ∧
    ∃ msg, resumeWith returnMachine { object := 0, permission := 0 } =
      .error (.machineBug msg) :=
  resume_with_spec awaitMachine { object := 0, permission := 0 }
    { pc := { bir := 0, basicBlock := 0, statement := 0 },
      vars := [none, some { object := 0, permission := 0 }] }
    awaitBir
    { statements := [],
      terminator := .assign (.localVariable 0) (.await (.localVariable 1)) 0 }
    (.localVariable 0) (.await (.localVariable 1)) 0
    returnMachine { object := 0, permission := 0 }
    rfl rfl rfl rfl rfl (by decide)

end Dada
